import Mathlib

/-!
# modelgen: struct-mapping code generator

A shallow embedding of `internal/types`, `internal/reader` (the classifiers),
`internal/generator` and `internal/mapper` of `matt0792/modelgen`, followed by theorems
about the classifiers, the field matcher and the text the generator emits.

Modelling conventions.

* A Go `string` is a Lean `String`.  The Go code only searches for and cuts at ASCII
  text (`"."`, `"*"`, `"[]"`, `"map["`, the package prefix), so on valid UTF-8 the
  byte-wise operations of package `strings` agree with the character-wise ones here.
* A Go `map[string]V` is the list of its entries (`GoMap V`), listed in the order in
  which a `range` over it visits them.  A stored key occurs once.  Code that only
  indexes the map uses `List.lookup`; code that ranges over it walks the list.
* `bytes.Buffer` is the string written so far; `fmt.Fprintf` and `WriteString` append.
* `fmt.Sprintf` with `%s` verbs is concatenation.
* Methods with a `*Generator` receiver pass the generator state explicitly.
* `go/format.Source` belongs to the standard library, not to the repository.  It is a
  `Formatter`: any function from the source text to the formatted text or an error that
  has the one property of `format.Source` the generator relies on, `SortsImports`.
* `MappingConfig.SourceType` and `TargetType` are non-nil.
-/

namespace Modelgen

/-! ## Package `strings` of the Go standard library -/

namespace strings

/-- Worker of `ReplaceAll`: the counter is the number of characters of the current
match still to be skipped. -/
def replaceAllAux (old new : List Char) : Nat → List Char → List Char
  | _, [] => if old.isEmpty then new else []
  | k + 1, _ :: cs => replaceAllAux old new k cs
  | 0, c :: cs =>
    if old.isPrefixOf (c :: cs) then new ++ replaceAllAux old new (old.length - 1) cs
    else c :: replaceAllAux old new 0 cs

/-- Go `strings.ReplaceAll(s, old, new)`: all non-overlapping instances of `old`,
scanning from the left, are replaced by `new`. -/
def ReplaceAll (s old new : String) : String :=
  ⟨replaceAllAux old.data new.data 0 s.data⟩

/-- Go `strings.HasPrefix(s, p)`. -/
def HasPrefix (s p : String) : Bool :=
  p.data.isPrefixOf s.data

/-- Go `strings.TrimPrefix(s, p)`: `s` without the leading `p`, or `s` itself. -/
def TrimPrefix (s p : String) : String :=
  if HasPrefix s p then ⟨s.data.drop p.data.length⟩ else s

/-- Worker of `Contains`. -/
def containsAux (sub : List Char) : List Char → Bool
  | [] => sub.isEmpty
  | c :: cs => sub.isPrefixOf (c :: cs) || containsAux sub cs

/-- Go `strings.Contains(s, substr)`. -/
def Contains (s substr : String) : Bool :=
  containsAux substr.data s.data

/-- Go `strings.TrimLeft(s, cutset)`: `s` without its leading characters that occur
in `cutset`. -/
def TrimLeft (s cutset : String) : String :=
  ⟨s.data.dropWhile (fun c => cutset.data.contains c)⟩

/-- Worker of `LastIndex`: `i` is the index of the head of the list, `best` the last
match seen so far. -/
def lastIndexAux (sub : List Char) : List Char → Nat → Int → Int
  | [], i, best => if sub.isEmpty then (i : Int) else best
  | c :: cs, i, best =>
    lastIndexAux sub cs (i + 1) (if sub.isPrefixOf (c :: cs) then (i : Int) else best)

/-- Go `strings.LastIndex(s, substr)`: index of the last instance of `substr` in `s`,
or `-1`. -/
def LastIndex (s substr : String) : Int :=
  lastIndexAux substr.data s.data 0 (-1)

end strings

/-! ## Go maps -/

/-- Go `map[string]V`: its entries, in the order a `range` visits them. -/
abbrev GoMap (V : Type) := List (String × V)

namespace GoMap

/-- The keys of a map, in iteration order. -/
def keys {V : Type} (m : GoMap V) : List String :=
  m.map Prod.fst

/-- Go `m[k] = v`: overwrite the entry of `k`, or add one. -/
def set {V : Type} (m : GoMap V) (k : String) (v : V) : GoMap V :=
  if (m.lookup k).isSome then m.map (fun e => if e.1 == k then (k, v) else e)
  else m ++ [(k, v)]

/-- Go `delete(m, k)`. -/
def delete {V : Type} (m : GoMap V) (k : String) : GoMap V :=
  m.filter (fun e => e.1 != k)

end GoMap

/-! ## `internal/types` -/

/-- Go `types.FieldInfo` (the field `Type` is spelled `Typ`). -/
structure FieldInfo where
  Name : String
  Typ : String
  IsOmitted : Bool := false
  IsNested : Bool := false
  IsSlice : Bool := false
  IsPointer : Bool := false
  deriving DecidableEq, Repr

/-- Go `types.StructInfo`. -/
structure StructInfo where
  PackageName : String
  PackagePath : String
  TypeName : String
  Fields : List FieldInfo
  deriving DecidableEq, Repr

/-- Go `types.MappingConfig`. -/
structure MappingConfig where
  SourceType : StructInfo
  TargetType : StructInfo
  OmitFields : GoMap Bool
  FieldMap : GoMap String
  deriving DecidableEq, Repr

/-- Go `config.OmitFields[name]`: the stored flag, `false` for a missing key. -/
def MappingConfig.omits (config : MappingConfig) (name : String) : Bool :=
  (config.OmitFields.lookup name).getD false

/-! ## `internal/reader`: the classifiers -/

/-- The `go/ast` type expressions the reader distinguishes.  `ArrayType` carries only
its element (the reader never looks at the length); `InterfaceType` carries the number
of entries of its method list; `Other` carries the `%T` name of any other node. -/
inductive Expr where
  | Ident (Name : String)
  | StarExpr (X : Expr)
  | ArrayType (Elt : Expr)
  | MapType (Key Value : Expr)
  | SelectorExpr (X : Expr) (Sel : String)
  | StructType
  | InterfaceType (methods : Nat)
  | FuncType
  | ChanType (Value : Expr)
  | Other (goType : String)
  deriving DecidableEq, Repr

namespace Reader

/-- Go `getTypeName`. -/
def getTypeName : Expr → String
  | .Ident name => name
  | .StarExpr x => "*" ++ getTypeName x
  | .ArrayType elt => "[]" ++ getTypeName elt
  | .MapType key value => "map[" ++ getTypeName key ++ "]" ++ getTypeName value
  | .SelectorExpr x sel => getTypeName x ++ "." ++ sel
  | .StructType => "struct\x7b...\x7d"
  | .InterfaceType methods => if methods = 0 then "interface\x7b\x7d" else "interface\x7b...\x7d"
  | .FuncType => "func(...)"
  | .ChanType value => "chan " ++ getTypeName value
  | .Other goType => "unknown<" ++ goType ++ ">"

/-- Go `Reader.exprToString`. -/
def exprToString (expr : Expr) : String :=
  getTypeName expr

/-- Go `Reader.isPointer`. -/
def isPointer : Expr → Bool
  | .StarExpr _ => true
  | _ => false

/-- Go `Reader.isSlice`. -/
def isSlice : Expr → Bool
  | .ArrayType _ => true
  | _ => false

/-- The keys of `basicTypes` in `isStructType`. -/
def basicTypes : List String :=
  ["string", "int", "int8", "int16", "int32", "int64",
   "uint", "uint8", "uint16", "uint32", "uint64",
   "float32", "float64", "bool", "byte", "rune",
   "complex64", "complex128", "error"]

/-- The keys of `stdlibTypes` in `isStructType`. -/
def stdlibTypes : List String :=
  ["time.Time", "time.Duration"]

/-- Go `Reader.isStructType`. -/
def isStructType : Expr → Bool
  | .StructType => true
  | .Ident name => !(basicTypes.contains name)
  | .SelectorExpr x sel =>
    if stdlibTypes.contains (getTypeName (.SelectorExpr x sel)) then false else true
  | .StarExpr x => isStructType x
  | .ArrayType elt => isStructType elt
  | _ => false

/-- One entry of `structType.Fields.List`: the declared names and their type. -/
structure Field where
  Names : List String
  Typ : Expr
  deriving DecidableEq, Repr

/-- Go `Reader.extractFields`. -/
def extractFields (fieldList : List Field) : List FieldInfo :=
  fieldList.foldl (fun fields field =>
    field.Names.foldl (fun fields name =>
      fields ++ [{ Name := name
                   Typ := exprToString field.Typ
                   IsPointer := isPointer field.Typ
                   IsSlice := isSlice field.Typ
                   IsNested := isStructType field.Typ }]) fields) []

/-- The expression left when all pointer and slice wrappers are stripped. -/
def elementType : Expr → Expr
  | .StarExpr x => elementType x
  | .ArrayType elt => elementType elt
  | e => e

end Reader

/-! ## Go identifiers and the type expressions built from them -/

/-- The letters of a Go identifier: `_`, the ASCII letters, and the characters outside
ASCII.  (Of the latter Go admits the Unicode letters and digits only, so every
character of a Go identifier that is not an ASCII digit is one of these.) -/
def isIdentLetter (c : Char) : Bool :=
  c.isAlpha || c == '_' || decide (128 ≤ c.toNat)

/-- A letter followed by letters and digits; every valid Go identifier is one. -/
def isGoIdentifier (s : String) : Bool :=
  match s.data with
  | [] => false
  | c :: cs => isIdentLetter c && cs.all (fun d => isIdentLetter d || d.isDigit)

namespace Expr

/-- A type expression built from identifiers, package-qualified names
(`PackageName.identifier`), pointers and slices, all identifiers valid. -/
def isSimple : Expr → Bool
  | .Ident name => isGoIdentifier name
  | .SelectorExpr (.Ident pkg) sel => isGoIdentifier pkg && isGoIdentifier sel
  | .StarExpr x => isSimple x
  | .ArrayType elt => isSimple elt
  | _ => false

/-- A type expression whose identifiers are valid Go identifiers; a qualified name is
`PackageName.identifier`, a `SelectorExpr` whose `X` is an `Ident`, as `go/parser`
builds it. -/
def wellFormed : Expr → Bool
  | .Ident name => isGoIdentifier name
  | .SelectorExpr (.Ident pkg) sel => isGoIdentifier pkg && isGoIdentifier sel
  | .SelectorExpr _ _ => false
  | .StarExpr x => wellFormed x
  | .ArrayType elt => wellFormed elt
  | .MapType key value => wellFormed key && wellFormed value
  | .ChanType value => wellFormed value
  | .StructType => true
  | .InterfaceType _ => true
  | .FuncType => true
  | .Other _ => true

end Expr

/-! ## `internal/generator` -/

/-- Go `generator.Generator`. -/
structure Generator where
  buf : String
  generatedStructs : GoMap Bool
  nestedStructs : List FieldInfo
  deriving DecidableEq, Repr

namespace Generator

/-- Go `New`. -/
def New : Generator :=
  { buf := "", generatedStructs := [], nestedStructs := [] }

/-- Go `cleanTypeName`. -/
def cleanTypeName (typeStr : String) (config : MappingConfig) : String :=
  let sourcePrefix := config.SourceType.PackageName ++ "."
  strings.ReplaceAll typeStr sourcePrefix ""

/-- The keys of `primitives` in `isPrimitiveType`. -/
def primitives : List String :=
  ["bool", "string", "int", "int8", "int16", "int32", "int64",
   "uint", "uint8", "uint16", "uint32", "uint64", "uintptr",
   "byte", "rune", "float32", "float64", "complex64", "complex128"]

/-- Go `isPrimitiveType`. -/
def isPrimitiveType (typeName : String) : Bool :=
  let clean := strings.TrimLeft typeName "*[]"
  let idx := strings.LastIndex clean "."
  let clean := if idx ≠ -1 then String.mk (clean.data.drop (idx + 1).toNat) else clean
  primitives.contains clean

/-- The keys of `builtins` in `isBuiltinType`. -/
def builtins : List String :=
  ["time.Time", "time.Duration"]

/-- Go `isBuiltinType`. -/
def isBuiltinType (typeName : String) : Bool :=
  let clean := strings.TrimLeft typeName "*[]"
  builtins.contains clean

/-- Go `needsConversion`. -/
def needsConversion (typeName : String) : Bool :=
  !isPrimitiveType typeName && !isBuiltinType typeName

/-- Go `zeroValue`. -/
def zeroValue (typeStr : String) : String :=
  if typeStr = "string" then "\"\""
  else if typeStr ∈ ["int", "int8", "int16", "int32", "int64"] then "0"
  else if typeStr ∈ ["uint", "uint8", "uint16", "uint32", "uint64"] then "0"
  else if typeStr ∈ ["float32", "float64"] then "0"
  else if typeStr = "bool" then "false"
  else if strings.HasPrefix typeStr "*" || strings.HasPrefix typeStr "[]"
      || strings.HasPrefix typeStr "map[" then "nil"
  else typeStr ++ "\x7b\x7d"

/-- The loop `for srcName, tgtName := range config.FieldMap` of `generateStructDef`,
`generateFromMethod` and `generateToMethod`: the first visited entry whose key is
`name` sets the target name and breaks. -/
def targetFieldNameLoop : GoMap String → String → String → String
  | [], _, targetFieldName => targetFieldName
  | (srcName, tgtName) :: rest, name, targetFieldName =>
    if srcName == name then tgtName else targetFieldNameLoop rest name targetFieldName

/-- The target field name the three emitters derive for a source field name. -/
def targetFieldName (config : MappingConfig) (name : String) : String :=
  targetFieldNameLoop config.FieldMap name name

/-- The pseudo target field that `generateFromMethod` and `generateToMethod` build. -/
def pseudoTargetField (config : MappingConfig) (sourceField : FieldInfo) : FieldInfo :=
  { Name := targetFieldName config sourceField.Name
    Typ := cleanTypeName sourceField.Typ config
    IsPointer := sourceField.IsPointer
    IsSlice := sourceField.IsSlice
    IsNested := sourceField.IsNested }

/-- Go `generateSliceMapping`. -/
def generateSliceMapping (sf tf : FieldInfo) (config : MappingConfig) : String :=
  let sourceElemType := strings.TrimPrefix sf.Typ "[]"
  let targetElemType := strings.TrimPrefix tf.Typ "[]"
  let targetElemTypeClean := cleanTypeName targetElemType config
  if needsConversion sourceElemType then
    "func() []" ++ targetElemTypeClean ++ " \x7b\n"
      ++ "\t\tif src." ++ sf.Name ++ " == nil \x7b\n"
      ++ "\t\t\treturn nil\n"
      ++ "\t\t\x7d\n"
      ++ "\t\tresult := make([]" ++ targetElemTypeClean ++ ", len(src." ++ sf.Name ++ "))\n"
      ++ "\t\tfor i, item := range src." ++ sf.Name ++ " \x7b\n"
      ++ "\t\t\tconverted := (&" ++ targetElemTypeClean ++ "\x7b\x7d).From(&item)\n"
      ++ "\t\t\tif converted != nil \x7b\n"
      ++ "\t\t\t\tresult[i] = *converted\n"
      ++ "\t\t\t\x7d\n"
      ++ "\t\t\x7d\n"
      ++ "\t\treturn result\n"
      ++ "\t\x7d()"
  else if sourceElemType = targetElemType then
    "src." ++ sf.Name
  else
    "func() []" ++ targetElemTypeClean ++ " \x7b\n"
      ++ "\t\tresult := make([]" ++ targetElemTypeClean ++ ", len(src." ++ sf.Name ++ "))\n"
      ++ "\t\tfor i, v := range src." ++ sf.Name ++ " \x7b\n"
      ++ "\t\t\tresult[i] = " ++ targetElemTypeClean ++ "(v)\n"
      ++ "\t\t\x7d\n"
      ++ "\t\treturn result\n"
      ++ "\t\x7d()"

/-- Go `generateNestedMapping`.  The arguments of the second `Sprintf` are, in the
source's order, `targetTypeClean, sf.Name, targetTypeClean, targetTypeClean`. -/
def generateNestedMapping (sf tf : FieldInfo) (config : MappingConfig) : String :=
  let targetTypeClean := cleanTypeName tf.Typ config
  let targetTypeClean := strings.TrimPrefix targetTypeClean "*"
  if sf.IsPointer then
    "func() *" ++ targetTypeClean ++ " \x7b\n"
      ++ "\t\tif src." ++ sf.Name ++ " != nil \x7b\n"
      ++ "\t\t\treturn (&" ++ targetTypeClean ++ "\x7b\x7d).From(src." ++ sf.Name ++ ")\n"
      ++ "\t\t\x7d\n"
      ++ "\t\treturn nil\n"
      ++ "\t\x7d()"
  else
    "func() " ++ targetTypeClean ++ " \x7b\n"
      ++ "\t\tresult := (&" ++ sf.Name ++ "\x7b\x7d).From(&src." ++ targetTypeClean ++ ")\n"
      ++ "\t\tif result != nil \x7b\n"
      ++ "\t\t\treturn *result\n"
      ++ "\t\t\x7d\n"
      ++ "\t\treturn " ++ targetTypeClean ++ "\x7b\x7d\n"
      ++ "\t\x7d()"

/-- Go `generateFieldMapping`. -/
def generateFieldMapping (sf tf : FieldInfo) (config : MappingConfig) : String :=
  if config.omits sf.Name then zeroValue tf.Typ
  else if sf.IsSlice && tf.IsSlice then generateSliceMapping sf tf config
  else if sf.IsNested && tf.IsNested then generateNestedMapping sf tf config
  else "src." ++ sf.Name

/-- Go `generateReverseSliceMapping`. -/
def generateReverseSliceMapping (tf sf : FieldInfo) (config : MappingConfig) : String :=
  let sourceElemType := strings.TrimPrefix sf.Typ "[]"
  let targetElemType := strings.TrimPrefix tf.Typ "[]"
  let sourcePackage := config.SourceType.PackageName
  if tf.IsNested || strings.Contains targetElemType "." then
    let sourceElemTypeClean := strings.TrimPrefix sourceElemType (sourcePackage ++ ".")
    "func() []" ++ sourcePackage ++ "." ++ sourceElemTypeClean ++ " \x7b\n"
      ++ "\t\tif t." ++ tf.Name ++ " == nil \x7b\n"
      ++ "\t\t\treturn nil\n"
      ++ "\t\t\x7d\n"
      ++ "\t\tresult := make([]" ++ sourcePackage ++ "." ++ sourceElemTypeClean
      ++ ", len(t." ++ tf.Name ++ "))\n"
      ++ "\t\tfor i, item := range t." ++ tf.Name ++ " \x7b\n"
      ++ "\t\t\tresult[i] = item.To()\n"
      ++ "\t\t\x7d\n"
      ++ "\t\treturn result\n"
      ++ "\t\x7d()"
  else
    "t." ++ tf.Name

/-- Go `generateReverseNestedMapping`. -/
def generateReverseNestedMapping (tf sf : FieldInfo) (config : MappingConfig) : String :=
  let sourcePackage := config.SourceType.PackageName
  let sourceTypeClean := cleanTypeName sf.Typ config
  let typeName := strings.TrimPrefix sourceTypeClean (sourcePackage ++ ".")
  let typeName := strings.TrimPrefix typeName "*"
  if tf.IsPointer then
    "func() *" ++ sourcePackage ++ "." ++ typeName ++ " \x7b\n"
      ++ "\t\tif t." ++ tf.Name ++ " != nil \x7b\n"
      ++ "\t\t\tresult := t." ++ tf.Name ++ ".To()\n"
      ++ "\t\t\treturn &result\n"
      ++ "\t\t\x7d\n"
      ++ "\t\treturn nil\n"
      ++ "\t\x7d()"
  else
    "func() " ++ sourcePackage ++ "." ++ typeName ++ " \x7b\n"
      ++ "\t\treturn t." ++ tf.Name ++ ".To()\n"
      ++ "\t\x7d()"

/-- Go `generateReverseFieldMapping`. -/
def generateReverseFieldMapping (tf sf : FieldInfo) (config : MappingConfig) : String :=
  let sourceTypeClean := cleanTypeName sf.Typ config
  let targetTypeClean := cleanTypeName tf.Typ config
  if sourceTypeClean = targetTypeClean then "t." ++ tf.Name
  else if tf.IsSlice && sf.IsSlice then generateReverseSliceMapping tf sf config
  else if tf.IsNested && sf.IsNested then generateReverseNestedMapping tf sf config
  else "t." ++ tf.Name

/-- One iteration of the field loop of `generateStructDef`, on the buffer. -/
def structDefField (config : MappingConfig) (buf : String) (sourceField : FieldInfo) : String :=
  if config.omits sourceField.Name then buf
  else
    let targetFieldName := targetFieldName config sourceField.Name
    let typeStr := cleanTypeName sourceField.Typ config
    buf ++ ("\t" ++ targetFieldName ++ " " ++ typeStr ++ "\n")

/-- The field loop of `generateStructDef` over `fields`. -/
def structDefFields (config : MappingConfig) (buf : String) (fields : List FieldInfo) : String :=
  fields.foldl (structDefField config) buf

/-- Go `generateStructDef`. -/
def generateStructDef (g : Generator) (config : MappingConfig) : Generator :=
  let targetTypeName := config.TargetType.TypeName
  let buf := g.buf ++ ("type " ++ targetTypeName ++ " struct \x7b\n")
  let buf := structDefFields config buf config.SourceType.Fields
  let buf := buf ++ "\x7d\n\n"
  { g with buf := buf, generatedStructs := g.generatedStructs.set targetTypeName true }

/-- One iteration of the field loop of `generateFromMethod`, on the buffer. -/
def fromMethodField (config : MappingConfig) (buf : String) (sourceField : FieldInfo) : String :=
  if config.omits sourceField.Name then buf
  else
    let targetField := pseudoTargetField config sourceField
    let mappingExpr := generateFieldMapping sourceField targetField config
    buf ++ ("\t\t" ++ targetField.Name ++ ": " ++ mappingExpr ++ ",\n")

/-- The field loop of `generateFromMethod` over `fields`. -/
def fromMethodFields (config : MappingConfig) (buf : String) (fields : List FieldInfo) : String :=
  fields.foldl (fromMethodField config) buf

/-- What `generateFromMethod` writes before its field loop. -/
def fromMethodHead (config : MappingConfig) : String :=
  let targetType := config.TargetType.TypeName
  let sourceType := config.SourceType.TypeName
  let sourcePackage := config.SourceType.PackageName
  "// From maps from an external struct to a local\n"
    ++ "//\n"
    ++ ("// Usage: local" ++ targetType ++ " := (&" ++ targetType ++ "\x7b\x7d).From(&external"
        ++ sourceType ++ ")\n")
    ++ ("func (t *" ++ targetType ++ ") From(src *" ++ sourcePackage ++ "." ++ sourceType
        ++ ") *" ++ targetType ++ " \x7b\n")
    ++ "\tif src == nil \x7b\n"
    ++ "\t\treturn nil\n"
    ++ "\t\x7d\n\n"
    ++ ("\treturn &" ++ targetType ++ "\x7b\n")

/-- Go `generateFromMethod`. -/
def generateFromMethod (g : Generator) (config : MappingConfig) : Generator :=
  let buf := g.buf ++ fromMethodHead config
  let buf := fromMethodFields config buf config.SourceType.Fields
  let buf := buf ++ "\t\x7d\n"
  let buf := buf ++ "\x7d\n\n"
  { g with buf := buf }

/-- One iteration of the field loop of `generateToMethod`, on the buffer. -/
def toMethodField (config : MappingConfig) (buf : String) (sourceField : FieldInfo) : String :=
  if config.omits sourceField.Name then
    buf ++ ("\t\t" ++ sourceField.Name ++ ": " ++ zeroValue sourceField.Typ ++ ",\n")
  else
    let targetField := pseudoTargetField config sourceField
    let mappingExpr := generateReverseFieldMapping targetField sourceField config
    buf ++ ("\t\t" ++ sourceField.Name ++ ": " ++ mappingExpr ++ ",\n")

/-- The field loop of `generateToMethod` over `fields`. -/
def toMethodFields (config : MappingConfig) (buf : String) (fields : List FieldInfo) : String :=
  fields.foldl (toMethodField config) buf

/-- What `generateToMethod` writes before its field loop. -/
def toMethodHead (config : MappingConfig) : String :=
  let targetType := config.TargetType.TypeName
  let sourceType := config.SourceType.TypeName
  let sourcePackage := config.SourceType.PackageName
  ("// Usage: external" ++ sourceType ++ " := " ++ targetType ++ ".To()\n")
    ++ ("func (t *" ++ targetType ++ ") To() " ++ sourcePackage ++ "." ++ sourceType ++ " \x7b\n")
    ++ ("\treturn " ++ sourcePackage ++ "." ++ sourceType ++ "\x7b\n")

/-- Go `generateToMethod`. -/
def generateToMethod (g : Generator) (config : MappingConfig) : Generator :=
  let buf := g.buf ++ toMethodHead config
  let buf := toMethodFields config buf config.SourceType.Fields
  let buf := buf ++ "\t\x7d\n"
  let buf := buf ++ "\x7d\n\n"
  { g with buf := buf }

/-- Go `writePackage`. -/
def writePackage (g : Generator) (pkgName : String) : Generator :=
  { g with buf := g.buf ++ ("package " ++ pkgName ++ "\n\n") }

/-- The map `importsMap` of `collectImports` once both field loops have run. -/
def importsMap (config : MappingConfig) : GoMap Bool :=
  let importsMap : GoMap Bool := []
  let importsMap :=
    if config.SourceType.PackagePath ≠ "" then importsMap.set config.SourceType.PackagePath true
    else importsMap
  let importsMap := config.SourceType.Fields.foldl (fun m field =>
    if strings.Contains field.Typ "time.Time" then m.set "time" true else m) importsMap
  config.TargetType.Fields.foldl (fun m field =>
    if strings.Contains field.Typ "time.Time" then m.set "time" true else m) importsMap

/-- Go `collectImports`.  `range` is the order in which this run of
`for imp := range importsMap` visits the entries; the Go runtime is free to choose any
order (see `IsRangeOrder`). -/
def collectImports (range : GoMap Bool → GoMap Bool) (config : MappingConfig) : List String :=
  (range (importsMap config)).foldl (fun imports e => imports ++ [e.1]) []

/-- An iteration order of Go maps: every map is visited entry by entry, each entry
once. -/
def IsRangeOrder (range : GoMap Bool → GoMap Bool) : Prop :=
  ∀ m, (range m).Perm m

/-- Go `writeImports`. -/
def writeImports (range : GoMap Bool → GoMap Bool) (g : Generator) (config : MappingConfig) :
    Generator :=
  let imports := collectImports range config
  if imports.length = 0 then g
  else
    let buf := g.buf ++ "import (\n"
    let buf := imports.foldl (fun buf imp => buf ++ ("\t\"" ++ imp ++ "\"\n")) buf
    let buf := buf ++ ")\n\n"
    { g with buf := buf }

/-- The text `Generate` has assembled in `g.buf` when it calls `format.Source`. -/
def assemble (range : GoMap Bool → GoMap Bool) (g : Generator) (config : MappingConfig) :
    Generator :=
  let g := { g with buf := "", generatedStructs := [], nestedStructs := [] }
  let g := writePackage g config.TargetType.PackageName
  let g := writeImports range g config
  let g := generateStructDef g config
  let g := generateFromMethod g config
  generateToMethod g config

/-- Text that stands for itself between the quotes of a Go interpreted string literal:
it holds no double quote, no backslash and no newline. -/
def isPlainStringText (s : String) : Bool :=
  s.data.all (fun c => c != '"' && c != '\\' && c != '\n')

/-- A Go import declaration in factored form with one import spec per line, the form
in which `writeImports` writes a non-empty list of imports. -/
def factoredImportDecl (paths : List String) : String :=
  "import (\n" ++ String.join (paths.map (fun imp => "\t\"" ++ imp ++ "\"\n")) ++ ")\n\n"

/-- The property of `go/format.Source` that the generator relies on.  `format.Source`
parses a complete source file, sorts the specs of every import declaration by import
path (`ast.SortImports`) and prints the syntax tree.  So for two source files that
consist of the same package clause, an import declaration in factored form and the same
remaining text, and that differ only in the order of the import specs, it returns the
same formatted text, or it fails on both (the two error messages need not agree).  The
conditions keep the scanner on the intended tokens: the package name is an identifier,
and every import path stands for itself between its quotes; the paths are distinct. -/
def SortsImports (run : String → Except String String) : Prop :=
  ∀ (pkg : String) (paths₁ paths₂ : List String) (rest : String),
    isGoIdentifier pkg = true →
    (∀ p ∈ paths₁, isPlainStringText p = true) →
    paths₁.Nodup → paths₁.Perm paths₂ →
    (run ("package " ++ pkg ++ "\n\n" ++ factoredImportDecl paths₁ ++ rest)).toOption
      = (run ("package " ++ pkg ++ "\n\n" ++ factoredImportDecl paths₂ ++ rest)).toOption

/-- Go `format.Source` of the standard library: the formatted text, or the message of
the error, for a source text. -/
structure Formatter where
  run : String → Except String String
  sortsImports : SortsImports run

/-- Go `Generate`.  `formatSource` is `go/format.Source`; the result is the generator
state, the returned text, and the message of the returned error if there is one. -/
def Generate (range : GoMap Bool → GoMap Bool) (formatSource : Formatter)
    (g : Generator) (config : MappingConfig) : Generator × String × Option String :=
  let g := assemble range g config
  match formatSource.run g.buf with
  | .error err => (g, "", some ("format error: " ++ err ++ "\nGenerated code:\n" ++ g.buf))
  | .ok formatted => (g, formatted, none)

/-- Go `GenerateStructAndMethods`. -/
def GenerateStructAndMethods (g : Generator) (config : MappingConfig) : Generator × String :=
  let g := { g with buf := "", generatedStructs := [], nestedStructs := [] }
  let g := generateStructDef g config
  let g := generateFromMethod g config
  let g := generateToMethod g config
  (g, g.buf)

/-- The dispatch of `generateReverseFieldMapping` with its two emitters as arguments;
`generateReverseFieldMapping` is the instance with `generateReverseSliceMapping` and
`generateReverseNestedMapping`. -/
def generateReverseFieldMappingVia
    (sliceEmitter nestedEmitter : FieldInfo → FieldInfo → MappingConfig → String)
    (tf sf : FieldInfo) (config : MappingConfig) : String :=
  let sourceTypeClean := cleanTypeName sf.Typ config
  let targetTypeClean := cleanTypeName tf.Typ config
  if sourceTypeClean = targetTypeClean then "t." ++ tf.Name
  else if tf.IsSlice && sf.IsSlice then sliceEmitter tf sf config
  else if tf.IsNested && sf.IsNested then nestedEmitter tf sf config
  else "t." ++ tf.Name

/-- One iteration of the naive reverse generator: the zero value for an omitted field,
the direct copy `<source name>: t.<target name>` for every other field, whatever its
classifiers. -/
def naiveToMethodField (config : MappingConfig) (buf : String) (sourceField : FieldInfo) :
    String :=
  if config.omits sourceField.Name then
    buf ++ ("\t\t" ++ sourceField.Name ++ ": " ++ zeroValue sourceField.Typ ++ ",\n")
  else
    buf ++ ("\t\t" ++ sourceField.Name ++ ": t." ++ targetFieldName config sourceField.Name
      ++ ",\n")

/-- The naive reverse generator: `generateToMethod` with a direct copy for every field
that is not omitted. -/
def naiveToMethod (g : Generator) (config : MappingConfig) : Generator :=
  let buf := g.buf ++ toMethodHead config
  let buf := config.SourceType.Fields.foldl (naiveToMethodField config) buf
  let buf := buf ++ "\t\x7d\n"
  let buf := buf ++ "\x7d\n\n"
  { g with buf := buf }

end Generator

/-! ## `internal/mapper` -/

namespace FieldMatcher

/-- Go `FieldMatcher.MatchFields` (`source` and `target` are non-nil). -/
def MatchFields (source target : StructInfo) : GoMap String :=
  let targetFields : GoMap Bool :=
    target.Fields.foldl (fun targetFields tf => targetFields.set tf.Name true) []
  source.Fields.foldl (fun result sf =>
    if (targetFields.lookup sf.Name).getD false then result.set sf.Name sf.Name
    else result) []

/-- Go `FieldMatcher.NeedsRecursiveMapping`. -/
def NeedsRecursiveMapping (sourceField targetField : FieldInfo) : Bool :=
  sourceField.IsNested && targetField.IsNested

end FieldMatcher

end Modelgen

/-! ## Example inputs -/

namespace Modelgen

namespace Examples

/-- The target `StructInfo` of the examples: package `models`, the type name of the
source, no fields listed. -/
def target (typeName : String) : StructInfo :=
  { PackageName := "models", PackagePath := "", TypeName := typeName, Fields := [] }

/-- Zero-config mapping of `api.User` with the fields `ID int`, `Name string`,
`Email string`. -/
def basicUser : MappingConfig :=
  { SourceType :=
      { PackageName := "api"
        PackagePath := "github.com/matt0792/modelgen/examples/basic/api"
        TypeName := "User"
        Fields := [{ Name := "ID", Typ := "int" }, { Name := "Name", Typ := "string" },
                   { Name := "Email", Typ := "string" }] }
    TargetType := target "User"
    OmitFields := []
    FieldMap := [] }

/-- Mapping of `api.Account` with the fields `ID int`, `Name string`,
`LegacyField string`: `ID` renamed to `ExternalId`, `Name` and `LegacyField` omitted. -/
def customAccount : MappingConfig :=
  { SourceType :=
      { PackageName := "api"
        PackagePath := "github.com/matt0792/modelgen/examples/custom/api"
        TypeName := "Account"
        Fields := [{ Name := "ID", Typ := "int" }, { Name := "Name", Typ := "string" },
                   { Name := "LegacyField", Typ := "string" }] }
    TargetType := target "Account"
    OmitFields := [("Name", true), ("LegacyField", true)]
    FieldMap := [("ID", "ExternalId")] }

/-- Mapping of a record `api.Ticket` with the fields `ID int`, `Code int`: `ID` renamed
to `LegacyID` and `Code` renamed to `ID`. -/
def renamedTicket : MappingConfig :=
  { SourceType :=
      { PackageName := "api"
        PackagePath := "example.com/tickets/api"
        TypeName := "Ticket"
        Fields := [{ Name := "ID", Typ := "int" }, { Name := "Code", Typ := "int" }] }
    TargetType := target "Ticket"
    OmitFields := []
    FieldMap := [("ID", "LegacyID"), ("Code", "ID")] }

/-- Mapping of a record `api.Frame` with the fields `ID int`, `Kind byte`, `Sep rune`,
`Addr uintptr`, `Phase complex128`, all but `ID` omitted. -/
def omittedNumerics : MappingConfig :=
  { SourceType :=
      { PackageName := "api"
        PackagePath := "example.com/frames/api"
        TypeName := "Frame"
        Fields := Reader.extractFields
          [⟨["ID"], .Ident "int"⟩, ⟨["Kind"], .Ident "byte"⟩, ⟨["Sep"], .Ident "rune"⟩,
           ⟨["Addr"], .Ident "uintptr"⟩, ⟨["Phase"], .Ident "complex128"⟩] }
    TargetType := target "Frame"
    OmitFields := [("Kind", true), ("Sep", true), ("Addr", true), ("Phase", true)]
    FieldMap := [] }

/-- The declaration of `Account` in `examples/everything/api/models.go`, as the parsed
field list. -/
def everythingAccountDecl : List Reader.Field :=
  [⟨["ID"], .Ident "int"⟩, ⟨["Name"], .Ident "string"⟩, ⟨["Username"], .Ident "string"⟩,
   ⟨["Email"], .Ident "string"⟩, ⟨["Posts"], .ArrayType (.Ident "Post")⟩,
   ⟨["Settings"], .Ident "UserSettings"⟩]

/-- Mapping of `api.Account` of `examples/everything`: `ID` renamed to `AccountId`,
`Name` omitted. -/
def everythingAccount : MappingConfig :=
  { SourceType :=
      { PackageName := "api"
        PackagePath := "github.com/matt0792/modelgen/examples/everything/api"
        TypeName := "Account"
        Fields := Reader.extractFields everythingAccountDecl }
    TargetType := target "Account"
    OmitFields := [("Name", true)]
    FieldMap := [("ID", "AccountId")] }

/-- Mapping of a record `api.Event` with the fields `ID int`, `At time.Time`, zero
config; the target lists the same fields. -/
def timestampedEvent : MappingConfig :=
  { SourceType :=
      { PackageName := "api"
        PackagePath := "example.com/events/api"
        TypeName := "Event"
        Fields := Reader.extractFields
          [⟨["ID"], .Ident "int"⟩, ⟨["At"], .SelectorExpr (.Ident "time") "Time"⟩] }
    TargetType :=
      { target "Event" with
        Fields := Reader.extractFields
          [⟨["ID"], .Ident "int"⟩, ⟨["At"], .SelectorExpr (.Ident "time") "Time"⟩] }
    OmitFields := []
    FieldMap := [] }

/-- Mapping of a record `api.Job` with the fields `ID int`, `Timeout time.Duration`,
zero config; the target lists the same fields. -/
def timedJob : MappingConfig :=
  { SourceType :=
      { PackageName := "api"
        PackagePath := "example.com/jobs/api"
        TypeName := "Job"
        Fields := Reader.extractFields
          [⟨["ID"], .Ident "int"⟩, ⟨["Timeout"], .SelectorExpr (.Ident "time") "Duration"⟩] }
    TargetType :=
      { target "Job" with
        Fields := Reader.extractFields
          [⟨["ID"], .Ident "int"⟩, ⟨["Timeout"], .SelectorExpr (.Ident "time") "Duration"⟩] }
    OmitFields := []
    FieldMap := [] }

/-- Mapping of a record `api.Table` with the fields `ID int`, `Handles []uintptr`, zero
config. -/
def handleTable : MappingConfig :=
  { SourceType :=
      { PackageName := "api"
        PackagePath := "example.com/tables/api"
        TypeName := "Table"
        Fields := Reader.extractFields
          [⟨["ID"], .Ident "int"⟩, ⟨["Handles"], .ArrayType (.Ident "uintptr")⟩] }
    TargetType := target "Table"
    OmitFields := []
    FieldMap := [] }

/-- Mapping of a record `api.Blog` with the fields `ID int`, `Owner *Author`,
`Tags []string`, zero config. -/
def pointerBlog : MappingConfig :=
  { SourceType :=
      { PackageName := "api"
        PackagePath := "example.com/blogs/api"
        TypeName := "Blog"
        Fields := Reader.extractFields
          [⟨["ID"], .Ident "int"⟩, ⟨["Owner"], .StarExpr (.Ident "Author")⟩,
           ⟨["Tags"], .ArrayType (.Ident "string")⟩] }
    TargetType := target "Blog"
    OmitFields := []
    FieldMap := [] }

/-- Mapping of a record `api.Member` with the fields `ID int`, `Name string`,
`Nick string`, `Joined time.Time`: `ID` renamed to `MemberId`, `Name` and `Nick`
omitted. -/
def timestampedMember : MappingConfig :=
  { SourceType :=
      { PackageName := "api"
        PackagePath := "example.com/members/api"
        TypeName := "Member"
        Fields := Reader.extractFields
          [⟨["ID"], .Ident "int"⟩, ⟨["Name"], .Ident "string"⟩, ⟨["Nick"], .Ident "string"⟩,
           ⟨["Joined"], .SelectorExpr (.Ident "time") "Time"⟩] }
    TargetType := target "Member"
    OmitFields := [("Name", true), ("Nick", true)]
    FieldMap := [("ID", "MemberId")] }

/-- The mapping `timestampedMember`, with the entries of `OmitFields` visited in the
other order. -/
def timestampedMemberReordered : MappingConfig :=
  { timestampedMember with OmitFields := [("Nick", true), ("Name", true)] }

/-- The declaration of `Blog` in `examples/nested/api/blog.go`, as the parsed field
list. -/
def nestedBlogDecl : List Reader.Field :=
  [⟨["ID"], .Ident "int"⟩, ⟨["Title"], .Ident "string"⟩, ⟨["Author"], .Ident "Author"⟩,
   ⟨["Posts"], .ArrayType (.Ident "Post")⟩]

/-- Zero-config mapping of `api.Blog` of `examples/nested`. -/
def nestedBlog : MappingConfig :=
  { SourceType :=
      { PackageName := "api"
        PackagePath := "github.com/matt0792/modelgen/examples/nested/api"
        TypeName := "Blog"
        Fields := Reader.extractFields nestedBlogDecl }
    TargetType := target "Blog"
    OmitFields := []
    FieldMap := [] }

/-- The mapping `customAccount` with a rename of the omitted field `Name` added to
`FieldMap`. -/
def omittedAndRenamed : MappingConfig :=
  { customAccount with FieldMap := [("ID", "ExternalId"), ("Name", "FullName")] }

/-- Mapping of a record `api.Doc` with the fields `ID int`, `Spec openapi.Schema`, the
latter of a type of another package whose name ends in `api`; zero config. -/
def suffixQualified : MappingConfig :=
  { SourceType :=
      { PackageName := "api"
        PackagePath := "example.com/docs/api"
        TypeName := "Doc"
        Fields := Reader.extractFields
          [⟨["ID"], .Ident "int"⟩, ⟨["Spec"], .SelectorExpr (.Ident "openapi") "Schema"⟩] }
    TargetType := target "Doc"
    OmitFields := []
    FieldMap := [] }

/-- Mapping of a record `api.Report` with the fields `ID int`, `Errs []error`, zero
config. -/
def errorList : MappingConfig :=
  { SourceType :=
      { PackageName := "api"
        PackagePath := "example.com/reports/api"
        TypeName := "Report"
        Fields := Reader.extractFields
          [⟨["ID"], .Ident "int"⟩, ⟨["Errs"], .ArrayType (.Ident "error")⟩] }
    TargetType := target "Report"
    OmitFields := []
    FieldMap := [] }

/-- The lines of a text: the pieces between its newline characters. -/
def splitLines : List Char → List (List Char)
  | [] => [[]]
  | c :: cs =>
    if c = '\n' then [] :: splitLines cs
    else
      match splitLines cs with
      | [] => [[c]]
      | l :: ls => (c :: l) :: ls

/-- The text with the given lines. -/
def joinLines : List (List Char) → List Char
  | [] => []
  | [l] => l
  | l :: ls => l ++ '\n' :: joinLines ls

/-- Sorts the lines between the first line `import (` and the next line `)`, and keeps
every other line in its place. -/
def sortSpecLines : List (List Char) → List (List Char)
  | [] => []
  | l :: ls =>
    if l = "import (".data then
      l :: ((ls.takeWhile (fun s => s != ")".data)).insertionSort (fun a b => a ≤ b)
            ++ ls.dropWhile (fun s => s != ")".data))
    else l :: sortSpecLines ls

/-- An example of a formatter: it sorts the spec lines of the first import declaration
in factored form and returns every other line as it is.  (`format.Source` also aligns
and indents the text; this one does not.) -/
def sortImportsOnly (src : String) : Except String String :=
  .ok ⟨joinLines (sortSpecLines (splitLines src.data))⟩

end Examples

end Modelgen

set_option maxRecDepth 100000

namespace Modelgen

/-! ## Shared lemmas: buffers and loops -/

theorem foldl_buf {α : Type} (step : String → α → String)
    (hstep : ∀ b x, step b x = b ++ step "" x) (l : List α) (b : String) :
    l.foldl step b = b ++ l.foldl step "" := by
  induction l generalizing b with
  | nil => simp
  | cons x xs ih =>
    simp only [List.foldl_cons]
    rw [ih (step b x), ih (step "" x), hstep b x, String.append_assoc]

theorem foldl_buf_append {α : Type} (step : String → α → String)
    (hstep : ∀ b x, step b x = b ++ step "" x) (l₁ l₂ : List α) (b : String) :
    (l₁ ++ l₂).foldl step b = l₁.foldl step b ++ l₂.foldl step "" := by
  rw [List.foldl_append, foldl_buf step hstep l₂]

theorem join_cons (a : String) (l : List String) : String.join (a :: l) = a ++ String.join l := by
  unfold String.join
  simp only [List.foldl_cons]
  rw [foldl_buf (fun r s => r ++ s) (fun b x => by simp) l ("" ++ a)]
  simp

theorem foldl_buf_join {α : Type} (step : String → α → String)
    (hstep : ∀ b x, step b x = b ++ step "" x) (l : List α) :
    l.foldl step "" = String.join (l.map (step "")) := by
  induction l with
  | nil => rfl
  | cons x xs ih =>
    simp only [List.foldl_cons, List.map_cons, join_cons]
    rw [foldl_buf step hstep xs, ih]

theorem join_filter_map {α : Type} (p : α → Bool) (line : α → String) (l : List α) :
    String.join (l.map (fun x => if p x then "" else line x))
      = String.join ((l.filter (fun x => !p x)).map line) := by
  induction l with
  | nil => rfl
  | cons x xs ih =>
    by_cases hp : p x = true
    · simp [hp, join_cons, ih]
    · simp [hp, join_cons, ih]

namespace Generator

theorem targetFieldNameLoop_eq (m : GoMap String) (name d : String) :
    targetFieldNameLoop m name d = (m.lookup name).getD d := by
  induction m with
  | nil => rfl
  | cons e rest ih =>
    obtain ⟨srcName, tgtName⟩ := e
    by_cases h : srcName = name
    · subst h; simp [targetFieldNameLoop, List.lookup]
    · have h2 : (name == srcName) = false := by
        simp only [beq_eq_false_iff_ne, ne_eq]; exact fun hh => h hh.symm
      simp [targetFieldNameLoop, List.lookup, h, h2, ih]

theorem structDefField_buf (config : MappingConfig) (buf : String) (f : FieldInfo) :
    structDefField config buf f = buf ++ structDefField config "" f := by
  unfold structDefField
  split <;> simp

theorem fromMethodField_buf (config : MappingConfig) (buf : String) (f : FieldInfo) :
    fromMethodField config buf f = buf ++ fromMethodField config "" f := by
  unfold fromMethodField
  split <;> simp

theorem toMethodField_buf (config : MappingConfig) (buf : String) (f : FieldInfo) :
    toMethodField config buf f = buf ++ toMethodField config "" f := by
  unfold toMethodField
  split <;> simp

end Generator
end Modelgen

namespace Modelgen
namespace Generator

theorem structDefFields_split (config : MappingConfig) (buf : String)
    (pre post : List FieldInfo) (f : FieldInfo) :
    structDefFields config buf (pre ++ f :: post)
      = structDefFields config buf pre ++ structDefField config "" f
        ++ structDefFields config "" post := by
  unfold structDefFields
  rw [foldl_buf_append _ (structDefField_buf config), List.foldl_cons,
    foldl_buf _ (structDefField_buf config) post, String.append_assoc]

theorem fromMethodFields_split (config : MappingConfig) (buf : String)
    (pre post : List FieldInfo) (f : FieldInfo) :
    fromMethodFields config buf (pre ++ f :: post)
      = fromMethodFields config buf pre ++ fromMethodField config "" f
        ++ fromMethodFields config "" post := by
  unfold fromMethodFields
  rw [foldl_buf_append _ (fromMethodField_buf config), List.foldl_cons,
    foldl_buf _ (fromMethodField_buf config) post, String.append_assoc]

theorem toMethodFields_split (config : MappingConfig) (buf : String)
    (pre post : List FieldInfo) (f : FieldInfo) :
    toMethodFields config buf (pre ++ f :: post)
      = toMethodFields config buf pre ++ toMethodField config "" f
        ++ toMethodFields config "" post := by
  unfold toMethodFields
  rw [foldl_buf_append _ (toMethodField_buf config), List.foldl_cons,
    foldl_buf _ (toMethodField_buf config) post, String.append_assoc]

theorem targetFieldName_eq (config : MappingConfig) (name : String) :
    targetFieldName config name = (config.FieldMap.lookup name).getD name :=
  targetFieldNameLoop_eq config.FieldMap name name

/-! ## C1: the target struct definition -/

/-- The text `generateStructDef` appends, in closed form: the line
`type <TargetType.TypeName> struct {`, then one line `<targetName> <type>` per source
field in declaration order, leaving out the fields that `OmitFields` marks
(`config.OmitFields[name]` is true), where `targetName` is `FieldMap[name]` if the name
is a key of `FieldMap` and the source name otherwise, and `type` is the field's type
expression with every occurrence of the text `<source package>.` removed, then the
closing brace line. -/
theorem generateStructDef_emits (g : Generator) (config : MappingConfig) :
    (generateStructDef g config).buf
      = g.buf ++ "type " ++ config.TargetType.TypeName ++ " struct \x7b\n"
        ++ String.join
            ((config.SourceType.Fields.filter
                (fun f => !((config.OmitFields.lookup f.Name).getD false))).map
              (fun f =>
                "\t" ++ (match config.FieldMap.lookup f.Name with
                         | some tgtName => tgtName
                         | none => f.Name)
                  ++ " " ++ strings.ReplaceAll f.Typ (config.SourceType.PackageName ++ ".") ""
                  ++ "\n"))
        ++ "\x7d\n\n" := by
  have hline : ∀ f : FieldInfo, structDefField config "" f
      = if (config.OmitFields.lookup f.Name).getD false then ""
        else "\t" ++ (match config.FieldMap.lookup f.Name with
                      | some tgtName => tgtName
                      | none => f.Name)
              ++ " " ++ strings.ReplaceAll f.Typ (config.SourceType.PackageName ++ ".") ""
              ++ "\n" := by
    intro f
    unfold structDefField MappingConfig.omits
    split
    · rfl
    · rw [targetFieldName_eq]
      cases config.FieldMap.lookup f.Name <;> simp [cleanTypeName, String.append_assoc]
  unfold generateStructDef structDefFields
  simp only
  rw [foldl_buf _ (structDefField_buf config), foldl_buf_join _ (structDefField_buf config)]
  rw [show structDefField config "" = _ from funext hline, join_filter_map]
  simp only [String.append_assoc]

/-- C1, evaluated on `Examples.suffixQualified`: source package `api`, fields `ID int`
and `Spec openapi.Schema`.  The qualifier of the type of `Spec` is `openapi`, not the
source package, so the type with the source package qualifier stripped is
`openapi.Schema` and the line claimed is `Spec openapi.Schema`.  `generateStructDef`
writes `Spec openSchema`: it strips by removing the text `api.` wherever it occurs in
the type expression (`cleanTypeName`, the defect of C17).  Everything else in the claim
holds for every configuration: the header line, one line per source field in
declaration order that `OmitFields` does not mark, the target name `FieldMap[name]` or
else the source name, the closing brace line, and nothing besides. -/
theorem generateStructDef_strips_inside_longer_qualifier :
    Examples.suffixQualified.SourceType.PackageName = "api"
    ∧ Examples.suffixQualified.SourceType.Fields
        = Reader.extractFields
            [⟨["ID"], .Ident "int"⟩, ⟨["Spec"], .SelectorExpr (.Ident "openapi") "Schema"⟩]
    ∧ Reader.exprToString (.SelectorExpr (.Ident "openapi") "Schema") = "openapi.Schema"
    ∧ (generateStructDef New Examples.suffixQualified).buf
        = "type Doc struct \x7b\n"
          ++ "\tID int\n"
          ++ "\tSpec openSchema\n"
          ++ "\x7d\n\n"
    ∧ (generateStructDef New Examples.suffixQualified).buf
        ≠ "type Doc struct \x7b\n"
          ++ "\tID int\n"
          ++ "\tSpec openapi.Schema\n"
          ++ "\x7d\n\n"
    ∧ (∀ (g : Generator) (config : MappingConfig),
        (generateStructDef g config).buf
          = g.buf ++ "type " ++ config.TargetType.TypeName ++ " struct \x7b\n"
            ++ String.join
                ((config.SourceType.Fields.filter
                    (fun f => !((config.OmitFields.lookup f.Name).getD false))).map
                  (fun f =>
                    "\t" ++ (match config.FieldMap.lookup f.Name with
                             | some tgtName => tgtName
                             | none => f.Name)
                      ++ " " ++ cleanTypeName f.Typ config ++ "\n"))
            ++ "\x7d\n\n") := by
  refine ⟨by decide, by decide, by decide, by decide, by decide, ?_⟩
  intro g config
  exact generateStructDef_emits g config

end Generator
end Modelgen

namespace Modelgen
namespace Generator

/-! ## C2: omitted fields in the reverse conversion -/

/-- C2, evaluated on `Examples.omittedNumerics`.  The omitted fields `Kind byte`,
`Sep rune`, `Addr uintptr` and `Phase complex128` have types that `isPrimitiveType`
recognises, yet `zeroValue` falls through to its default case for them, so
`generateToMethod` emits the composite literals `byte{}`, `rune{}`, `uintptr{}` and
`complex128{}` where the zero value of a numeric type is `0`. -/
theorem zeroValue_misses_numeric_types :
    Examples.omittedNumerics.SourceType.Fields
        = [{ Name := "ID", Typ := "int" }, { Name := "Kind", Typ := "byte" },
           { Name := "Sep", Typ := "rune" },
           { Name := "Addr", Typ := "uintptr", IsNested := true },
           { Name := "Phase", Typ := "complex128" }]
    ∧ (isPrimitiveType "byte" = true ∧ zeroValue "byte" = "byte\x7b\x7d")
    ∧ (isPrimitiveType "rune" = true ∧ zeroValue "rune" = "rune\x7b\x7d")
    ∧ (isPrimitiveType "uintptr" = true ∧ zeroValue "uintptr" = "uintptr\x7b\x7d")
    ∧ (isPrimitiveType "complex64" = true ∧ zeroValue "complex64" = "complex64\x7b\x7d")
    ∧ (isPrimitiveType "complex128" = true ∧ zeroValue "complex128" = "complex128\x7b\x7d")
    ∧ (generateStructDef New Examples.omittedNumerics).buf
        = "type Frame struct \x7b\n\tID int\n\x7d\n\n"
    ∧ (generateToMethod New Examples.omittedNumerics).buf
        = "// Usage: externalFrame := Frame.To()\n"
          ++ "func (t *Frame) To() api.Frame \x7b\n"
          ++ "\treturn api.Frame\x7b\n"
          ++ "\t\tID: t.ID,\n"
          ++ "\t\tKind: byte\x7b\x7d,\n"
          ++ "\t\tSep: rune\x7b\x7d,\n"
          ++ "\t\tAddr: uintptr\x7b\x7d,\n"
          ++ "\t\tPhase: complex128\x7b\x7d,\n"
          ++ "\t\x7d\n"
          ++ "\x7d\n\n" := by
  refine ⟨?_, ⟨?_, ?_⟩, ⟨?_, ?_⟩, ⟨?_, ?_⟩, ⟨?_, ?_⟩, ⟨?_, ?_⟩, ?_, ?_⟩ <;> decide

end Generator
end Modelgen

namespace Modelgen
namespace Generator

/-! ## C3: renamed fields -/

/-- The line `generateStructDef` writes for a field that is not omitted. -/
theorem structDefField_kept (config : MappingConfig) (f : FieldInfo)
    (homit : config.omits f.Name = false) :
    structDefField config "" f
      = "\t" ++ targetFieldName config f.Name ++ " " ++ cleanTypeName f.Typ config ++ "\n" := by
  simp [structDefField, homit, String.append_assoc]

/-- The entry `generateFromMethod` writes for a field that is not omitted. -/
theorem fromMethodField_kept (config : MappingConfig) (f : FieldInfo)
    (homit : config.omits f.Name = false) :
    fromMethodField config "" f
      = "\t\t" ++ targetFieldName config f.Name ++ ": "
        ++ generateFieldMapping f (pseudoTargetField config f) config ++ ",\n" := by
  simp [fromMethodField, homit, pseudoTargetField, String.append_assoc]

/-- The entry `generateToMethod` writes for a field that is not omitted. -/
theorem toMethodField_kept (config : MappingConfig) (f : FieldInfo)
    (homit : config.omits f.Name = false) :
    toMethodField config "" f
      = "\t\t" ++ f.Name ++ ": "
        ++ generateReverseFieldMapping (pseudoTargetField config f) f config ++ ",\n" := by
  simp [toMethodField, homit, String.append_assoc]

/-- A field that is neither a slice nor nested is copied directly by `From`. -/
theorem generateFieldMapping_plain (config : MappingConfig) (f : FieldInfo)
    (homit : config.omits f.Name = false) (hslice : f.IsSlice = false)
    (hnested : f.IsNested = false) :
    generateFieldMapping f (pseudoTargetField config f) config = "src." ++ f.Name := by
  simp [generateFieldMapping, homit, hslice, hnested]

/-- A field that is neither a slice nor nested is copied directly by `To`. -/
theorem generateReverseFieldMapping_plain (config : MappingConfig) (f : FieldInfo)
    (hslice : f.IsSlice = false) (hnested : f.IsNested = false) :
    generateReverseFieldMapping (pseudoTargetField config f) f config
      = "t." ++ targetFieldName config f.Name := by
  simp [generateReverseFieldMapping, pseudoTargetField, hslice, hnested]

/-- Two adjacent literals of a `From` entry, merged. -/
theorem colon_src (s : String) : ": " ++ ("src." ++ s) = ": src." ++ s := by
  rw [← String.append_assoc]; rfl

/-- Two adjacent literals of a `To` entry, merged. -/
theorem colon_t (s : String) : ": " ++ ("t." ++ s) = ": t." ++ s := by
  rw [← String.append_assoc]; rfl

/-- The struct definition, split at one source field. -/
theorem generateStructDef_split (g : Generator) (config : MappingConfig)
    (pre post : List FieldInfo) (f : FieldInfo)
    (hfields : config.SourceType.Fields = pre ++ f :: post) :
    (generateStructDef g config).buf
      = structDefFields config
          (g.buf ++ "type " ++ config.TargetType.TypeName ++ " struct \x7b\n") pre
        ++ structDefField config "" f ++ structDefFields config "" post ++ "\x7d\n\n" := by
  simp only [generateStructDef, hfields, structDefFields_split, String.append_assoc]

/-- The `From` method, split at one source field. -/
theorem generateFromMethod_split (g : Generator) (config : MappingConfig)
    (pre post : List FieldInfo) (f : FieldInfo)
    (hfields : config.SourceType.Fields = pre ++ f :: post) :
    (generateFromMethod g config).buf
      = fromMethodFields config (g.buf ++ fromMethodHead config) pre
        ++ fromMethodField config "" f ++ fromMethodFields config "" post
        ++ "\t\x7d\n\x7d\n\n" := by
  simp only [generateFromMethod, hfields, fromMethodFields_split, String.append_assoc]
  rfl

/-- The `To` method, split at one source field. -/
theorem generateToMethod_split (g : Generator) (config : MappingConfig)
    (pre post : List FieldInfo) (f : FieldInfo)
    (hfields : config.SourceType.Fields = pre ++ f :: post) :
    (generateToMethod g config).buf
      = toMethodFields config (g.buf ++ toMethodHead config) pre
        ++ toMethodField config "" f ++ toMethodFields config "" post
        ++ "\t\x7d\n\x7d\n\n" := by
  simp only [generateToMethod, hfields, toMethodFields_split, String.append_assoc]
  rfl

/-- C3, the claim as stated fails on `Examples.renamedTicket`.  The field `ID` is not
omitted, is primitive, is renamed to `LegacyID`, and `LegacyID` differs from `ID` and
from every other source field name; but `Code` is renamed to `ID`, so the target struct
does declare a field named `ID`. -/
theorem rename_old_name_declared_again :
    Examples.renamedTicket.SourceType.Fields
        = [{ Name := "ID", Typ := "int" }, { Name := "Code", Typ := "int" }]
    ∧ Examples.renamedTicket.omits "ID" = false
    ∧ Examples.renamedTicket.FieldMap.lookup "ID" = some "LegacyID"
    ∧ "LegacyID" ≠ "ID"
    ∧ (∀ x ∈ Examples.renamedTicket.SourceType.Fields, x.Name ≠ "ID" → "LegacyID" ≠ x.Name)
    ∧ targetFieldName Examples.renamedTicket "Code" = "ID"
    ∧ (generateStructDef New Examples.renamedTicket).buf
        = "type Ticket struct \x7b\n\tLegacyID int\n\tID int\n\x7d\n\n" := by
  refine ⟨?_, ?_, ?_, ?_, ?_, ?_, ?_⟩ <;> decide

/-- C3, amended.  Let `f` be a source field that is not omitted, is neither a slice nor
nested, and that `FieldMap` renames to `newName`, with `newName` different from
`f.Name`, and let no other source field that is not omitted be renamed to `f.Name`.
Then the
line of the struct definition written for `f` is `<newName> <type>`, no line of the
struct definition declares the name `f.Name`, the entry of `From` written for `f` is
`<newName>: src.<f.Name>`, and the entry of `To` written for `f` is
`<f.Name>: t.<newName>`. -/
theorem rename_bridges_names (g : Generator) (config : MappingConfig)
    (pre post : List FieldInfo) (f : FieldInfo) (newName : String)
    (hfields : config.SourceType.Fields = pre ++ f :: post)
    (homit : config.omits f.Name = false)
    (hslice : f.IsSlice = false) (hnested : f.IsNested = false)
    (hmap : config.FieldMap.lookup f.Name = some newName)
    (hne : newName ≠ f.Name)
    (hclash : ∀ x ∈ config.SourceType.Fields, config.omits x.Name = false →
      x.Name ≠ f.Name → config.FieldMap.lookup x.Name ≠ some f.Name) :
    (generateStructDef g config).buf
        = structDefFields config
            (g.buf ++ "type " ++ config.TargetType.TypeName ++ " struct \x7b\n") pre
          ++ ("\t" ++ newName ++ " " ++ cleanTypeName f.Typ config ++ "\n")
          ++ structDefFields config "" post ++ "\x7d\n\n"
    ∧ (∀ x ∈ config.SourceType.Fields, config.omits x.Name = false →
        targetFieldName config x.Name ≠ f.Name)
    ∧ (generateFromMethod g config).buf
        = fromMethodFields config (g.buf ++ fromMethodHead config) pre
          ++ ("\t\t" ++ newName ++ ": src." ++ f.Name ++ ",\n")
          ++ fromMethodFields config "" post ++ "\t\x7d\n\x7d\n\n"
    ∧ (generateToMethod g config).buf
        = toMethodFields config (g.buf ++ toMethodHead config) pre
          ++ ("\t\t" ++ f.Name ++ ": t." ++ newName ++ ",\n")
          ++ toMethodFields config "" post ++ "\t\x7d\n\x7d\n\n" := by
  have htarget : targetFieldName config f.Name = newName := by
    rw [targetFieldName_eq, hmap]; rfl
  refine ⟨?_, ?_, ?_, ?_⟩
  · rw [generateStructDef_split g config pre post f hfields,
      structDefField_kept config f homit, htarget]
  · intro x hx hxomit hEq
    rw [targetFieldName_eq] at hEq
    cases hlook : config.FieldMap.lookup x.Name with
    | none =>
      rw [hlook] at hEq
      have hname : x.Name = f.Name := hEq
      rw [hname, hmap] at hlook
      exact Option.noConfusion hlook
    | some t =>
      rw [hlook] at hEq
      have ht : t = f.Name := hEq
      by_cases hname : x.Name = f.Name
      · rw [hname, hmap] at hlook
        exact hne ((Option.some.inj hlook).trans ht)
      · exact hclash x hx hxomit hname (by rw [hlook, ht])
  · rw [generateFromMethod_split g config pre post f hfields,
      fromMethodField_kept config f homit,
      generateFieldMapping_plain config f homit hslice hnested, htarget]
    simp only [String.append_assoc, colon_src]
  · rw [generateToMethod_split g config pre post f hfields,
      toMethodField_kept config f homit,
      generateReverseFieldMapping_plain config f hslice hnested, htarget]
    simp only [String.append_assoc, colon_t]

/-- C3, the example of the claim: for `api.Account` with the fields `ID int`,
`Name string`, `LegacyField string`, `ID` renamed to `ExternalId` and the other two
omitted, the struct has the single field `ExternalId int`, `From` has the single entry
`ExternalId: src.ID`, and `To` has the entries `ID: t.ExternalId`, `Name: ""`,
`LegacyField: ""` in that order. -/
theorem rename_bridges_names_witness :
    (generateStructDef New Examples.customAccount).buf
        = "type Account struct \x7b\n\tExternalId int\n\x7d\n\n"
    ∧ (∀ x ∈ Examples.customAccount.SourceType.Fields,
        Examples.customAccount.omits x.Name = false →
          targetFieldName Examples.customAccount x.Name ≠ "ID")
    ∧ (generateFromMethod New Examples.customAccount).buf
        = "// From maps from an external struct to a local\n"
          ++ "//\n"
          ++ "// Usage: localAccount := (&Account\x7b\x7d).From(&externalAccount)\n"
          ++ "func (t *Account) From(src *api.Account) *Account \x7b\n"
          ++ "\tif src == nil \x7b\n"
          ++ "\t\treturn nil\n"
          ++ "\t\x7d\n\n"
          ++ "\treturn &Account\x7b\n"
          ++ "\t\tExternalId: src.ID,\n"
          ++ "\t\x7d\n"
          ++ "\x7d\n\n"
    ∧ (generateToMethod New Examples.customAccount).buf
        = "// Usage: externalAccount := Account.To()\n"
          ++ "func (t *Account) To() api.Account \x7b\n"
          ++ "\treturn api.Account\x7b\n"
          ++ "\t\tID: t.ExternalId,\n"
          ++ "\t\tName: \"\",\n"
          ++ "\t\tLegacyField: \"\",\n"
          ++ "\t\x7d\n"
          ++ "\x7d\n\n" := by
  have h := rename_bridges_names New Examples.customAccount []
    [{ Name := "Name", Typ := "string" }, { Name := "LegacyField", Typ := "string" }]
    { Name := "ID", Typ := "int" } "ExternalId"
    (by decide) (by decide) (by decide) (by decide) (by decide) (by decide) (by decide)
  exact ⟨h.1.trans (by decide), h.2.1, h.2.2.1.trans (by decide), h.2.2.2.trans (by decide)⟩

end Generator
end Modelgen

namespace Modelgen
namespace Generator

/-! ## C4: value-typed nested records in `From` -/

/-- C4, evaluated on `Examples.everythingAccount`.  The field `Settings UserSettings`
is a value-typed nested record that is not omitted.  The second `Sprintf` of
`generateNestedMapping` passes `sf.Name` where the target type belongs and the target
type where `sf.Name` belongs, so the emitted closure evaluates
`(&Settings{}).From(&src.UserSettings)` instead of
`(&UserSettings{}).From(&src.Settings)`. -/
theorem nested_value_arguments_swapped :
    Examples.everythingAccount.SourceType.Fields
        = [{ Name := "ID", Typ := "int" }, { Name := "Name", Typ := "string" },
           { Name := "Username", Typ := "string" }, { Name := "Email", Typ := "string" },
           { Name := "Posts", Typ := "[]Post", IsSlice := true, IsNested := true },
           { Name := "Settings", Typ := "UserSettings", IsNested := true }]
    ∧ Examples.everythingAccount.omits "Settings" = false
    ∧ generateFieldMapping { Name := "Settings", Typ := "UserSettings", IsNested := true }
          (pseudoTargetField Examples.everythingAccount
            { Name := "Settings", Typ := "UserSettings", IsNested := true })
          Examples.everythingAccount
        ≠ "func() UserSettings \x7b\n"
          ++ "\t\tresult := (&UserSettings\x7b\x7d).From(&src.Settings)\n"
          ++ "\t\tif result != nil \x7b\n"
          ++ "\t\t\treturn *result\n"
          ++ "\t\t\x7d\n"
          ++ "\t\treturn UserSettings\x7b\x7d\n"
          ++ "\t\x7d()"
    ∧ (generateFromMethod New Examples.everythingAccount).buf
        = "// From maps from an external struct to a local\n"
          ++ "//\n"
          ++ "// Usage: localAccount := (&Account\x7b\x7d).From(&externalAccount)\n"
          ++ "func (t *Account) From(src *api.Account) *Account \x7b\n"
          ++ "\tif src == nil \x7b\n"
          ++ "\t\treturn nil\n"
          ++ "\t\x7d\n\n"
          ++ "\treturn &Account\x7b\n"
          ++ "\t\tAccountId: src.ID,\n"
          ++ "\t\tUsername: src.Username,\n"
          ++ "\t\tEmail: src.Email,\n"
          ++ "\t\tPosts: func() []Post \x7b\n"
          ++ "\t\tif src.Posts == nil \x7b\n"
          ++ "\t\t\treturn nil\n"
          ++ "\t\t\x7d\n"
          ++ "\t\tresult := make([]Post, len(src.Posts))\n"
          ++ "\t\tfor i, item := range src.Posts \x7b\n"
          ++ "\t\t\tconverted := (&Post\x7b\x7d).From(&item)\n"
          ++ "\t\t\tif converted != nil \x7b\n"
          ++ "\t\t\t\tresult[i] = *converted\n"
          ++ "\t\t\t\x7d\n"
          ++ "\t\t\x7d\n"
          ++ "\t\treturn result\n"
          ++ "\t\x7d(),\n"
          ++ "\t\tSettings: func() UserSettings \x7b\n"
          ++ "\t\tresult := (&Settings\x7b\x7d).From(&src.UserSettings)\n"
          ++ "\t\tif result != nil \x7b\n"
          ++ "\t\t\treturn *result\n"
          ++ "\t\t\x7d\n"
          ++ "\t\treturn UserSettings\x7b\x7d\n"
          ++ "\t\x7d(),\n"
          ++ "\t\x7d\n"
          ++ "\x7d\n\n" := by
  refine ⟨?_, ?_, ?_, ?_⟩ <;> decide

end Generator
end Modelgen

namespace Modelgen

/-! ## C5: determinism and the iteration order of maps -/

/-- Indexing a map does not depend on the order in which its entries are listed. -/
theorem lookup_perm {V : Type} {m₁ m₂ : GoMap V} (h : m₁.Perm m₂)
    (hkeys : (GoMap.keys m₁).Nodup)
    (k : String) : m₁.lookup k = m₂.lookup k := by
  induction h with
  | nil => rfl
  | cons e _ ih =>
    obtain ⟨a, v⟩ := e
    have htail := (List.nodup_cons.mp hkeys).2
    simp only [List.lookup_cons]
    cases k == a
    · exact ih htail
    · rfl
  | swap e₁ e₂ l =>
    obtain ⟨a₁, v₁⟩ := e₁
    obtain ⟨a₂, v₂⟩ := e₂
    have hne : a₂ ≠ a₁ := by
      have hmem := (List.nodup_cons.mp hkeys).1
      intro hEq
      apply hmem
      simp [hEq]
    simp only [List.lookup_cons]
    by_cases h₁ : k = a₁
    · have h₂ : (k == a₂) = false := by
        simp only [beq_eq_false_iff_ne, ne_eq]
        intro hk
        exact hne (hk.symm.trans h₁)
      simp [h₁, h₂]
      rw [← h₁, h₂]
    · have h₁b : (k == a₁) = false := by simpa using h₁
      simp [h₁b]
  | trans hab _ ih₁ ih₂ =>
    have hmid := ((hab.map Prod.fst).nodup_iff).mp hkeys
    exact (ih₁ hkeys).trans (ih₂ hmid)

/-- Appending one element per visited entry lists the images of the entries. -/
theorem foldl_append_singleton {α β : Type} (f : α → β) (l : List α) (init : List β) :
    l.foldl (fun acc e => acc ++ [f e]) init = init ++ l.map f := by
  induction l generalizing init with
  | nil => simp
  | cons x xs ih => simp [ih]

namespace GoMap

/-- Assigning to a key keeps the keys of a map distinct. -/
theorem set_keys_nodup {V : Type} (m : GoMap V) (k : String) (v : V) (h : (keys m).Nodup) :
    (keys (set m k v)).Nodup := by
  unfold set
  split
  · have hkeys : keys (m.map (fun e => if e.1 == k then (k, v) else e)) = keys m := by
      unfold keys
      rw [List.map_map]
      apply List.map_congr_left
      intro e _
      by_cases he : e.1 = k
      · simp [he]
      · simp [he]
    rw [hkeys]; exact h
  · rename_i hnone
    have hk : k ∉ keys m := by
      intro hmem
      apply hnone
      obtain ⟨e, he, hek⟩ := List.mem_map.mp hmem
      exact List.lookup_isSome_iff.mpr ⟨e, he, by simp [hek]⟩
    unfold keys at *
    rw [List.map_append, List.nodup_append]
    refine ⟨h, by simp, ?_⟩
    intro a ha hb
    simp at hb
    exact hk (hb ▸ ha)

end GoMap

namespace Generator

/-- The keys of `importsMap` are distinct. -/
theorem importsMap_keys_nodup (config : MappingConfig) :
    (GoMap.keys (importsMap config)).Nodup := by
  have hloop : ∀ (fields : List FieldInfo) (m : GoMap Bool), (GoMap.keys m).Nodup →
      (GoMap.keys (fields.foldl (fun m field =>
        if strings.Contains field.Typ "time.Time" then m.set "time" true else m) m)).Nodup := by
    intro fields
    induction fields with
    | nil => intro m hm; exact hm
    | cons f fs ih =>
      intro m hm
      simp only [List.foldl_cons]
      apply ih
      split
      · exact GoMap.set_keys_nodup m "time" true hm
      · exact hm
  unfold importsMap
  apply hloop
  apply hloop
  split
  · exact GoMap.set_keys_nodup [] _ true (by simp [GoMap.keys])
  · simp [GoMap.keys]

/-- The import list is the list of keys of `importsMap` in the visited order. -/
theorem collectImports_eq (range : GoMap Bool → GoMap Bool) (config : MappingConfig) :
    collectImports range config = GoMap.keys (range (importsMap config)) := by
  unfold collectImports GoMap.keys
  rw [foldl_append_singleton Prod.fst]
  simp

end Generator
end Modelgen

namespace Modelgen
namespace Generator

/-- What `generateStructDef` appends does not depend on the generator it starts from. -/
theorem generateStructDef_buf (g : Generator) (config : MappingConfig) :
    (generateStructDef g config).buf = g.buf ++ (generateStructDef New config).buf := by
  simp only [generateStructDef, structDefFields, New]
  rw [foldl_buf _ (structDefField_buf config),
    foldl_buf _ (structDefField_buf config) _ ("" ++ _)]
  simp only [String.append_assoc, String.empty_append]

/-- What `generateFromMethod` appends does not depend on the generator it starts from. -/
theorem generateFromMethod_buf (g : Generator) (config : MappingConfig) :
    (generateFromMethod g config).buf = g.buf ++ (generateFromMethod New config).buf := by
  simp only [generateFromMethod, fromMethodFields, New]
  rw [foldl_buf _ (fromMethodField_buf config),
    foldl_buf _ (fromMethodField_buf config) _ ("" ++ _)]
  simp only [String.append_assoc, String.empty_append]

/-- What `generateToMethod` appends does not depend on the generator it starts from. -/
theorem generateToMethod_buf (g : Generator) (config : MappingConfig) :
    (generateToMethod g config).buf = g.buf ++ (generateToMethod New config).buf := by
  simp only [generateToMethod, toMethodFields, New]
  rw [foldl_buf _ (toMethodField_buf config),
    foldl_buf _ (toMethodField_buf config) _ ("" ++ _)]
  simp only [String.append_assoc, String.empty_append]

/-- What `writeImports` appends does not depend on the generator it starts from. -/
theorem writeImports_buf (range : GoMap Bool → GoMap Bool) (g : Generator)
    (config : MappingConfig) :
    (writeImports range g config).buf = g.buf ++ (writeImports range New config).buf := by
  have hstep : ∀ (b : String) (imp : String),
      (fun buf imp => buf ++ ("\t\"" ++ imp ++ "\"\n")) b imp
        = b ++ (fun buf imp => buf ++ ("\t\"" ++ imp ++ "\"\n")) "" imp := by
    intro b imp; simp
  unfold writeImports
  simp only
  split
  · simp [New]
  · simp only [New]
    rw [foldl_buf _ hstep, foldl_buf _ hstep _ ("" ++ _)]
    simp only [String.append_assoc, String.empty_append]

/-- The text of `GenerateStructAndMethods` is the three emitted parts in a row. -/
theorem GenerateStructAndMethods_text (g : Generator) (config : MappingConfig) :
    (GenerateStructAndMethods g config).2
      = (generateStructDef New config).buf ++ (generateFromMethod New config).buf
        ++ (generateToMethod New config).buf := by
  simp only [GenerateStructAndMethods]
  rw [generateToMethod_buf, generateFromMethod_buf, generateStructDef_buf]
  simp

/-- The text `Generate` assembles: package clause, import block, struct and methods. -/
theorem assemble_text (range : GoMap Bool → GoMap Bool) (g : Generator)
    (config : MappingConfig) :
    (assemble range g config).buf
      = "package " ++ config.TargetType.PackageName ++ "\n\n"
        ++ (writeImports range New config).buf
        ++ (GenerateStructAndMethods New config).2 := by
  rw [GenerateStructAndMethods_text]
  simp only [assemble]
  rw [generateToMethod_buf, generateFromMethod_buf, generateStructDef_buf, writeImports_buf]
  simp [writePackage, String.append_assoc]

/-- The emitted struct and methods are the same for two listings of the same maps. -/
theorem GenerateStructAndMethods_reordered (g₁ g₂ : Generator) (config config2 : MappingConfig)
    (hsrc : config2.SourceType = config.SourceType)
    (htgt : config2.TargetType = config.TargetType)
    (homit : config2.OmitFields.Perm config.OmitFields)
    (hokeys : (GoMap.keys config2.OmitFields).Nodup)
    (hmap : config2.FieldMap.Perm config.FieldMap)
    (hmkeys : (GoMap.keys config2.FieldMap).Nodup) :
    (GenerateStructAndMethods g₂ config2).2 = (GenerateStructAndMethods g₁ config).2 := by
  have ho : ∀ k, config2.OmitFields.lookup k = config.OmitFields.lookup k :=
    fun k => lookup_perm homit hokeys k
  have hm : ∀ k, config2.FieldMap.lookup k = config.FieldMap.lookup k :=
    fun k => lookup_perm hmap hmkeys k
  have hstruct : structDefField config2 = structDefField config := by
    funext buf f
    simp only [structDefField, cleanTypeName, MappingConfig.omits, targetFieldName,
      targetFieldNameLoop_eq, hsrc, ho, hm]
  have hfrom : fromMethodField config2 = fromMethodField config := by
    funext buf f
    simp only [fromMethodField, pseudoTargetField, generateFieldMapping, generateSliceMapping,
      generateNestedMapping, cleanTypeName, MappingConfig.omits, targetFieldName,
      targetFieldNameLoop_eq, hsrc, ho, hm]
  have hto : toMethodField config2 = toMethodField config := by
    funext buf f
    simp only [toMethodField, pseudoTargetField, generateReverseFieldMapping,
      generateReverseSliceMapping, generateReverseNestedMapping, cleanTypeName,
      MappingConfig.omits, targetFieldName, targetFieldNameLoop_eq, hsrc, ho, hm]
  simp only [GenerateStructAndMethods, generateStructDef, generateFromMethod, generateToMethod,
    structDefFields, fromMethodFields, fromMethodHead, toMethodFields, toMethodHead,
    hsrc, htgt, hstruct, hfrom, hto]

end Generator
end Modelgen

namespace Modelgen
namespace Generator

/-- Every key of `importsMap` is the package path of the source or `time`. -/
theorem importsMap_keys (config : MappingConfig) :
    ∀ p ∈ GoMap.keys (importsMap config), p = config.SourceType.PackagePath ∨ p = "time" := by
  have hset : ∀ (m : GoMap Bool) (k : String) (P : String → Prop), P k →
      (∀ p ∈ GoMap.keys m, P p) → ∀ p ∈ GoMap.keys (GoMap.set m k true), P p := by
    intro m k P hk hm p hp
    unfold GoMap.set at hp
    split at hp
    · simp only [GoMap.keys, List.map_map, List.mem_map, Function.comp] at hp
      obtain ⟨e, he, hep⟩ := hp
      by_cases hek : e.1 = k
      · simp [hek] at hep; exact hep ▸ hk
      · simp [hek] at hep
        exact hm p (List.mem_map.mpr ⟨e, he, hep⟩)
    · simp only [GoMap.keys, List.map_append, List.mem_append, List.map_cons, List.map_nil,
        List.mem_singleton] at hp
      rcases hp with hp | hp
      · exact hm p hp
      · exact hp ▸ hk
  have hloop : ∀ (fields : List FieldInfo) (m : GoMap Bool),
      (∀ p ∈ GoMap.keys m, p = config.SourceType.PackagePath ∨ p = "time") →
      ∀ p ∈ GoMap.keys (fields.foldl (fun m field =>
        if strings.Contains field.Typ "time.Time" then m.set "time" true else m) m),
        p = config.SourceType.PackagePath ∨ p = "time" := by
    intro fields
    induction fields with
    | nil => intro m hm; exact hm
    | cons f fs ih =>
      intro m hm
      simp only [List.foldl_cons]
      apply ih
      split
      · exact hset m "time" _ (Or.inr rfl) hm
      · exact hm
  unfold importsMap
  apply hloop
  apply hloop
  split
  · exact hset [] _ _ (Or.inl rfl) (by simp [GoMap.keys])
  · simp [GoMap.keys]

/-- The text `writeImports` appends: nothing for an empty import list, the factored
declaration otherwise. -/
theorem writeImports_text (range : GoMap Bool → GoMap Bool) (config : MappingConfig) :
    (writeImports range New config).buf
      = if collectImports range config = [] then ""
        else factoredImportDecl (collectImports range config) := by
  have hstep : ∀ (b : String) (imp : String),
      (fun buf imp => buf ++ ("\t\"" ++ imp ++ "\"\n")) b imp
        = b ++ (fun buf imp => buf ++ ("\t\"" ++ imp ++ "\"\n")) "" imp := by
    intro b imp; simp
  unfold writeImports factoredImportDecl
  simp only
  by_cases h : collectImports range config = []
  · simp [h, New]
  · have hlen : ¬ (collectImports range config).length = 0 := by
      simpa [List.length_eq_zero] using h
    simp only [h, hlen, if_false, New]
    rw [foldl_buf _ hstep, foldl_buf_join _ hstep]
    simp [String.append_assoc]

end Generator

namespace Examples

/-- A line that is followed by a newline is the first of the lines. -/
theorem splitLines_line (a b : List Char) (ha : ∀ c ∈ a, c ≠ '\n') :
    splitLines (a ++ '\n' :: b) = a :: splitLines b := by
  induction a with
  | nil => simp [splitLines]
  | cons c cs ih =>
    have hc : c ≠ '\n' := ha c (List.mem_cons_self _ _)
    have ih2 := ih (fun d hd => ha d (List.mem_cons_of_mem _ hd))
    show splitLines (c :: (cs ++ '\n' :: b)) = _
    rw [splitLines, if_neg hc, ih2]

/-- The characters of a joined list of strings. -/
theorem join_data (l : List String) : (String.join l).data = (l.map String.data).flatten := by
  induction l with
  | nil => rfl
  | cons x xs ih => rw [join_cons, String.data_append, ih]; simp

/-- The lines of a run of import spec lines. -/
theorem splitLines_specs (paths : List String) (tail : List Char)
    (hplain : ∀ p ∈ paths, Generator.isPlainStringText p = true) :
    splitLines ((paths.map (fun p => ('\t' :: '"' :: p.data ++ ['"']) ++ ['\n'])).flatten ++ tail)
      = paths.map (fun p => '\t' :: '"' :: p.data ++ ['"']) ++ splitLines tail := by
  induction paths with
  | nil => simp
  | cons p ps ih =>
    have hp : ∀ c ∈ ('\t' :: '"' :: p.data ++ ['"']), c ≠ '\n' := by
      intro c hc
      simp only [List.cons_append, List.mem_cons, List.mem_append, List.mem_singleton,
        List.not_mem_nil, or_false] at hc
      rcases hc with h | h | h | h
      · rw [h]; decide
      · rw [h]; decide
      · have := hplain p (List.mem_cons_self _ _)
        simp only [Generator.isPlainStringText, List.all_eq_true, Bool.and_eq_true,
          bne_iff_ne, ne_eq] at this
        exact (this c h).2
      · rw [h]; decide
    have ih2 := ih (fun q hq => hplain q (List.mem_cons_of_mem _ hq))
    rw [List.map_cons, List.flatten_cons, List.map_cons, List.append_assoc, List.append_assoc,
      List.singleton_append, splitLines_line _ _ hp, ih2]
    rfl

/-- The lines of a generated file: the package clause, an empty line, the opening line
of the import declaration, the spec lines, the closing line, an empty line, the rest. -/
theorem splitLines_generated (pkg : String) (paths : List String) (rest : String)
    (hpkg : isGoIdentifier pkg = true)
    (hplain : ∀ p ∈ paths, Generator.isPlainStringText p = true) :
    splitLines ("package " ++ pkg ++ "\n\n" ++ Generator.factoredImportDecl paths ++ rest).data
      = ("package ".data ++ pkg.data) :: [] :: "import (".data
          :: (paths.map (fun p => '\t' :: '"' :: p.data ++ ['"'])
              ++ ")".data :: [] :: splitLines rest.data) := by
  have hident : ∀ c ∈ pkg.data, c ≠ '\n' := by
    intro c hc hEq
    subst hEq
    unfold isGoIdentifier at hpkg
    cases hdata : pkg.data with
    | nil => rw [hdata] at hpkg; exact absurd hpkg (by decide)
    | cons d ds =>
      rw [hdata] at hpkg hc
      simp only [Bool.and_eq_true, List.all_eq_true] at hpkg
      rcases List.mem_cons.mp hc with h1 | h1
      · rw [← h1] at hpkg; exact absurd hpkg.1 (by decide)
      · exact absurd (hpkg.2 _ h1) (by decide)
  have hhead : ∀ c ∈ "package ".data ++ pkg.data, c ≠ '\n' := by
    intro c hc
    rcases List.mem_append.mp hc with h | h
    · intro hEq; subst hEq; exact absurd h (by decide)
    · exact hident c h
  have hdata : ("package " ++ pkg ++ "\n\n" ++ Generator.factoredImportDecl paths ++ rest).data
      = ("package ".data ++ pkg.data) ++ '\n' :: ([] ++ '\n' :: ("import (".data ++ '\n' ::
          ((paths.map (fun p => ('\t' :: '"' :: p.data ++ ['"']) ++ ['\n'])).flatten
            ++ (")".data ++ '\n' :: ([] ++ '\n' :: rest.data))))) := by
    have hmap : (paths.map (fun imp => "\t\"" ++ imp ++ "\"\n")).map String.data
        = paths.map (fun p => ('\t' :: '"' :: p.data ++ ['"']) ++ ['\n']) := by
      rw [List.map_map]
      apply List.map_congr_left
      intro p _
      simp [String.data_append]
    simp only [Generator.factoredImportDecl, String.data_append, join_data, hmap]
    simp
  rw [hdata, splitLines_line _ _ hhead, splitLines_line _ _ (by simp),
    splitLines_line _ _ (by decide), splitLines_specs _ _ hplain,
    splitLines_line _ _ (by decide), splitLines_line _ _ (by simp)]

/-- The formatter sorts the spec lines of a generated file. -/
theorem sortSpecLines_generated (pkg : List Char) (specs tail : List (List Char))
    (hspecs : ∀ s ∈ specs, s ≠ ")".data) :
    sortSpecLines (("package ".data ++ pkg) :: [] :: "import (".data
        :: (specs ++ ")".data :: tail))
      = ("package ".data ++ pkg) :: [] :: "import (".data
          :: (specs.insertionSort (fun a b => a ≤ b) ++ ")".data :: tail) := by
  have h₁ : ¬ ("package ".data ++ pkg = "import (".data) := by
    show ¬ ('p' :: ("ackage ".data ++ pkg) = 'i' :: "mport (".data)
    intro h
    exact absurd (List.cons.inj h).1 (by decide)
  have h₂ : ¬ (([] : List Char) = "import (".data) := by decide
  have htake : (specs ++ ")".data :: tail).takeWhile (fun s => s != ")".data) = specs := by
    rw [List.takeWhile_append_of_pos (fun s hs => by simpa using hspecs s hs)]
    simp [List.takeWhile]
  have hdrop : ∀ l : List (List Char), (∀ s ∈ l, s ≠ ")".data) →
      (l ++ ")".data :: tail).dropWhile (fun s => s != ")".data) = ")".data :: tail := by
    intro l
    induction l with
    | nil => intro _; simp [List.dropWhile]
    | cons x xs ih =>
      intro hl
      have hx : (x != ")".data) = true := by
        simpa using hl x (List.mem_cons_self _ _)
      rw [List.cons_append, List.dropWhile_cons, hx, if_pos rfl]
      exact ih (fun s hs => hl s (List.mem_cons_of_mem _ hs))
  rw [sortSpecLines, if_neg h₁, sortSpecLines, if_neg h₂, sortSpecLines, if_pos rfl, htake, hdrop specs hspecs]

/-- The formatter `sortImportsOnly` has the property `SortsImports`. -/
theorem sortImportsOnly_sortsImports : Generator.SortsImports sortImportsOnly := by
  intro pkg paths₁ paths₂ rest hpkg hplain₁ _ hperm
  have hplain₂ : ∀ p ∈ paths₂, Generator.isPlainStringText p = true :=
    fun p hp => hplain₁ p (hperm.symm.subset hp)
  have hspecs : ∀ (paths : List String),
      ∀ s ∈ paths.map (fun p => '\t' :: '"' :: p.data ++ ['"']), s ≠ ")".data := by
    intro paths s hs
    obtain ⟨p, _, hp⟩ := List.mem_map.mp hs
    rw [← hp]
    intro h
    exact absurd (List.cons.inj h).1 (by decide)
  have hsorted : (paths₁.map (fun p => '\t' :: '"' :: p.data ++ ['"'])).insertionSort
        (fun a b => a ≤ b)
      = (paths₂.map (fun p => '\t' :: '"' :: p.data ++ ['"'])).insertionSort
        (fun a b => a ≤ b) :=
    List.eq_of_perm_of_sorted
      (((List.perm_insertionSort _ _).trans (hperm.map _)).trans
        (List.perm_insertionSort _ _).symm)
      (List.sorted_insertionSort _ _) (List.sorted_insertionSort _ _)
  simp only [sortImportsOnly, splitLines_generated pkg _ rest hpkg hplain₁,
    splitLines_generated pkg _ rest hpkg hplain₂,
    sortSpecLines_generated _ _ _ (hspecs paths₁), sortSpecLines_generated _ _ _ (hspecs paths₂),
    hsorted]

end Examples

namespace Generator

/-- C5. Take two runs of `Generate` on the same configuration.  Each run has its own
iteration order for `importsMap` (`range₁`, `range₂`), and the second run sees the
entries of `OmitFields` and `FieldMap` in another order (`config2`); the target
package name is an identifier and the package path of the source stands for itself in
a string literal, as every import path does.  Then the two runs return the same text,
and either both return an error or neither does: the texts handed to `format.Source`
differ at most in the order of the lines of the import declaration, which
`format.Source` sorts. -/
theorem Generate_text_independent_of_iteration_order
    (range₁ range₂ : GoMap Bool → GoMap Bool)
    (h₁ : IsRangeOrder range₁) (h₂ : IsRangeOrder range₂)
    (formatSource : Formatter) (g₁ g₂ : Generator)
    (config config2 : MappingConfig)
    (hsrc : config2.SourceType = config.SourceType)
    (htgt : config2.TargetType = config.TargetType)
    (homit : config2.OmitFields.Perm config.OmitFields)
    (hokeys : (GoMap.keys config.OmitFields).Nodup)
    (hmap : config2.FieldMap.Perm config.FieldMap)
    (hmkeys : (GoMap.keys config.FieldMap).Nodup)
    (hpkg : isGoIdentifier config.TargetType.PackageName = true)
    (hpath : isPlainStringText config.SourceType.PackagePath = true) :
    (Generate range₁ formatSource g₁ config).2.1
        = (Generate range₂ formatSource g₂ config2).2.1
    ∧ ((Generate range₁ formatSource g₁ config).2.2 = none
        ↔ (Generate range₂ formatSource g₂ config2).2.2 = none) := by
  have hmapEq : importsMap config2 = importsMap config := by
    simp only [importsMap, hsrc, htgt]
  have hokeys2 : (GoMap.keys config2.OmitFields).Nodup :=
    ((homit.map Prod.fst).nodup_iff).mpr hokeys
  have hmkeys2 : (GoMap.keys config2.FieldMap).Nodup :=
    ((hmap.map Prod.fst).nodup_iff).mpr hmkeys
  have hrest : (GenerateStructAndMethods New config2).2 = (GenerateStructAndMethods New config).2 :=
    GenerateStructAndMethods_reordered New New config config2 hsrc htgt homit hokeys2 hmap hmkeys2
  have hperm₁ : (collectImports range₁ config).Perm (GoMap.keys (importsMap config)) := by
    rw [collectImports_eq]; exact (h₁ _).map Prod.fst
  have hperm₂ : (collectImports range₂ config2).Perm (GoMap.keys (importsMap config)) := by
    rw [collectImports_eq, hmapEq]; exact (h₂ _).map Prod.fst
  have hperm : (collectImports range₁ config).Perm (collectImports range₂ config2) :=
    hperm₁.trans hperm₂.symm
  have hnodup : (collectImports range₁ config).Nodup :=
    (hperm₁.nodup_iff).mpr (importsMap_keys_nodup config)
  have hplain : ∀ p ∈ collectImports range₁ config, isPlainStringText p = true := by
    intro p hp
    rcases importsMap_keys config p (hperm₁.subset hp) with h | h
    · rw [h]; exact hpath
    · rw [h]; decide
  have hrun : (formatSource.run (assemble range₁ g₁ config).buf).toOption
      = (formatSource.run (assemble range₂ g₂ config2).buf).toOption := by
    rw [assemble_text, assemble_text, htgt, hrest, writeImports_text, writeImports_text]
    by_cases hnil : collectImports range₁ config = []
    · have hnil₂ : collectImports range₂ config2 = [] := by
        rw [hnil] at hperm; exact hperm.symm.eq_nil
      rw [hnil, hnil₂]
    · have hnil₂ : ¬ collectImports range₂ config2 = [] := by
        intro h; rw [h] at hperm; exact hnil hperm.eq_nil
      rw [if_neg hnil, if_neg hnil₂]
      exact formatSource.sortsImports _ _ _ _ hpkg hplain hnodup hperm
  simp only [Generate]
  cases hr₁ : formatSource.run (assemble range₁ g₁ config).buf <;>
    cases hr₂ : formatSource.run (assemble range₂ g₂ config2).buf <;>
    simp [hr₁, hr₂, Except.toOption] at hrun ⊢
  exact hrun

/-- C5 on `Examples.timestampedMember`, whose `importsMap` holds the package path of
the source and `time`.  One run visits maps in listing order, the other in reverse
order and with `OmitFields` listed the other way round; the formatter sorts the spec
lines of the import declaration.  The texts the two runs assemble differ, the texts
they return are the same, and neither run returns an error. -/
theorem Generate_text_independent_of_iteration_order_witness :
    IsRangeOrder id ∧ IsRangeOrder List.reverse
    ∧ Examples.timestampedMemberReordered.OmitFields.Perm Examples.timestampedMember.OmitFields
    ∧ isGoIdentifier Examples.timestampedMember.TargetType.PackageName = true
    ∧ isPlainStringText Examples.timestampedMember.SourceType.PackagePath = true
    ∧ collectImports id Examples.timestampedMember = ["example.com/members/api", "time"]
    ∧ collectImports List.reverse Examples.timestampedMemberReordered
        = ["time", "example.com/members/api"]
    ∧ (assemble id New Examples.timestampedMember).buf
        ≠ (assemble List.reverse New Examples.timestampedMemberReordered).buf
    ∧ (Generate id ⟨Examples.sortImportsOnly, Examples.sortImportsOnly_sortsImports⟩ New
          Examples.timestampedMember).2.1
        = (Generate List.reverse ⟨Examples.sortImportsOnly, Examples.sortImportsOnly_sortsImports⟩
            New Examples.timestampedMemberReordered).2.1
    ∧ ((Generate id ⟨Examples.sortImportsOnly, Examples.sortImportsOnly_sortsImports⟩ New
          Examples.timestampedMember).2.2 = none
        ↔ (Generate List.reverse ⟨Examples.sortImportsOnly, Examples.sortImportsOnly_sortsImports⟩
            New Examples.timestampedMemberReordered).2.2 = none)
    ∧ (Generate id ⟨Examples.sortImportsOnly, Examples.sortImportsOnly_sortsImports⟩ New
          Examples.timestampedMember).2.2 = none :=
  have hid : IsRangeOrder id := fun m => List.Perm.refl m
  have hrev : IsRangeOrder List.reverse := fun m => List.reverse_perm m
  have homit : Examples.timestampedMemberReordered.OmitFields.Perm
      Examples.timestampedMember.OmitFields := List.Perm.swap _ _ _
  have hpkg : isGoIdentifier Examples.timestampedMember.TargetType.PackageName = true := by
    decide
  have hpath : isPlainStringText Examples.timestampedMember.SourceType.PackagePath = true := by
    decide
  have hsame := Generate_text_independent_of_iteration_order id List.reverse hid hrev
    ⟨Examples.sortImportsOnly, Examples.sortImportsOnly_sortsImports⟩ New New
    Examples.timestampedMember Examples.timestampedMemberReordered rfl rfl
    homit (by decide) (List.Perm.refl _) (by decide) hpkg hpath
  ⟨hid, hrev, homit, hpkg, hpath, by decide, by decide, by decide, hsame.1, hsame.2, by decide⟩

end Generator
end Modelgen

namespace Modelgen
namespace Generator

/-! ## C6: the import set -/

/-- C6, evaluated on `Examples.timedJob`.  The field `Timeout time.Duration` has a
well-known opaque type (`isBuiltinType` and the reader's `stdlibTypes` list it), and the
emitted struct refers to `time.Duration`; `collectImports` only looks for the text
`time.Time`, so `importsMap` holds the source package path alone and no `time` import
is emitted, in whatever order the map is visited. -/
theorem time_Duration_not_imported :
    Examples.timedJob.SourceType.Fields
        = [{ Name := "ID", Typ := "int" }, { Name := "Timeout", Typ := "time.Duration" }]
    ∧ Examples.timedJob.TargetType.Fields = Examples.timedJob.SourceType.Fields
    ∧ isBuiltinType "time.Duration" = true
    ∧ importsMap Examples.timedJob = [("example.com/jobs/api", true)]
    ∧ collectImports id Examples.timedJob = ["example.com/jobs/api"]
    ∧ collectImports List.reverse Examples.timedJob = ["example.com/jobs/api"]
    ∧ "time" ∉ collectImports id Examples.timedJob
    ∧ (assemble id New Examples.timedJob).buf
        = "package models\n\n"
          ++ "import (\n"
          ++ "\t\"example.com/jobs/api\"\n"
          ++ ")\n\n"
          ++ "type Job struct \x7b\n"
          ++ "\tID int\n"
          ++ "\tTimeout time.Duration\n"
          ++ "\x7d\n\n"
          ++ "// From maps from an external struct to a local\n"
          ++ "//\n"
          ++ "// Usage: localJob := (&Job\x7b\x7d).From(&externalJob)\n"
          ++ "func (t *Job) From(src *api.Job) *Job \x7b\n"
          ++ "\tif src == nil \x7b\n"
          ++ "\t\treturn nil\n"
          ++ "\t\x7d\n\n"
          ++ "\treturn &Job\x7b\n"
          ++ "\t\tID: src.ID,\n"
          ++ "\t\tTimeout: src.Timeout,\n"
          ++ "\t\x7d\n"
          ++ "\x7d\n\n"
          ++ "// Usage: externalJob := Job.To()\n"
          ++ "func (t *Job) To() api.Job \x7b\n"
          ++ "\treturn api.Job\x7b\n"
          ++ "\t\tID: t.ID,\n"
          ++ "\t\tTimeout: t.Timeout,\n"
          ++ "\t\x7d\n"
          ++ "\x7d\n\n" := by
  refine ⟨?_, ?_, ?_, ?_, ?_, ?_, ?_, ?_⟩ <;> decide

/-! ## C7: identity mapping of plain fields -/

/-- C7. With empty `OmitFields` and empty `FieldMap`, for a source field `f` that is
neither a slice nor nested, the struct definition declares `f` under its own name with
its cleaned type, `From` writes the direct copy `<f.Name>: src.<f.Name>` and `To`
writes the direct copy `<f.Name>: t.<f.Name>`, each at the position of `f`. -/
theorem identity_mapping_copies_plain_field (g : Generator) (config : MappingConfig)
    (pre post : List FieldInfo) (f : FieldInfo)
    (hfields : config.SourceType.Fields = pre ++ f :: post)
    (homits : config.OmitFields = []) (hmap : config.FieldMap = [])
    (hslice : f.IsSlice = false) (hnested : f.IsNested = false) :
    (generateStructDef g config).buf
        = structDefFields config
            (g.buf ++ "type " ++ config.TargetType.TypeName ++ " struct \x7b\n") pre
          ++ ("\t" ++ f.Name ++ " " ++ cleanTypeName f.Typ config ++ "\n")
          ++ structDefFields config "" post ++ "\x7d\n\n"
    ∧ (generateFromMethod g config).buf
        = fromMethodFields config (g.buf ++ fromMethodHead config) pre
          ++ ("\t\t" ++ f.Name ++ ": src." ++ f.Name ++ ",\n")
          ++ fromMethodFields config "" post ++ "\t\x7d\n\x7d\n\n"
    ∧ (generateToMethod g config).buf
        = toMethodFields config (g.buf ++ toMethodHead config) pre
          ++ ("\t\t" ++ f.Name ++ ": t." ++ f.Name ++ ",\n")
          ++ toMethodFields config "" post ++ "\t\x7d\n\x7d\n\n" := by
  have homit : config.omits f.Name = false := by
    simp [MappingConfig.omits, homits]
  have htarget : targetFieldName config f.Name = f.Name := by
    rw [targetFieldName_eq, hmap]; rfl
  refine ⟨?_, ?_, ?_⟩
  · rw [generateStructDef_split g config pre post f hfields,
      structDefField_kept config f homit, htarget]
  · rw [generateFromMethod_split g config pre post f hfields,
      fromMethodField_kept config f homit,
      generateFieldMapping_plain config f homit hslice hnested, htarget]
    simp only [String.append_assoc, colon_src]
  · rw [generateToMethod_split g config pre post f hfields,
      toMethodField_kept config f homit,
      generateReverseFieldMapping_plain config f hslice hnested, htarget]
    simp only [String.append_assoc, colon_t]

/-- C7, the example of the claim: the zero-config mapping of a source with the fields
`ID int`, `Name string`, `Email string` gives a struct with the same three fields, the
`From` entries `ID: src.ID`, `Name: src.Name`, `Email: src.Email` and the `To` entries
`ID: t.ID`, `Name: t.Name`, `Email: t.Email`. -/
theorem identity_mapping_copies_plain_field_witness :
    (generateStructDef New Examples.basicUser).buf
        = "type User struct \x7b\n"
          ++ "\tID int\n"
          ++ "\tName string\n"
          ++ "\tEmail string\n"
          ++ "\x7d\n\n"
    ∧ (generateFromMethod New Examples.basicUser).buf
        = "// From maps from an external struct to a local\n"
          ++ "//\n"
          ++ "// Usage: localUser := (&User\x7b\x7d).From(&externalUser)\n"
          ++ "func (t *User) From(src *api.User) *User \x7b\n"
          ++ "\tif src == nil \x7b\n"
          ++ "\t\treturn nil\n"
          ++ "\t\x7d\n\n"
          ++ "\treturn &User\x7b\n"
          ++ "\t\tID: src.ID,\n"
          ++ "\t\tName: src.Name,\n"
          ++ "\t\tEmail: src.Email,\n"
          ++ "\t\x7d\n"
          ++ "\x7d\n\n"
    ∧ (generateToMethod New Examples.basicUser).buf
        = "// Usage: externalUser := User.To()\n"
          ++ "func (t *User) To() api.User \x7b\n"
          ++ "\treturn api.User\x7b\n"
          ++ "\t\tID: t.ID,\n"
          ++ "\t\tName: t.Name,\n"
          ++ "\t\tEmail: t.Email,\n"
          ++ "\t\x7d\n"
          ++ "\x7d\n\n" := by
  have h := identity_mapping_copies_plain_field New Examples.basicUser
    [{ Name := "ID", Typ := "int" }] [{ Name := "Email", Typ := "string" }]
    { Name := "Name", Typ := "string" } (by decide) (by decide) (by decide) (by decide)
    (by decide)
  exact ⟨h.1.trans (by decide), h.2.1.trans (by decide), h.2.2.trans (by decide)⟩

end Generator
end Modelgen

namespace Modelgen
namespace Generator

/-! ## C8: slices converted element by element -/

/-- C8, evaluated on the field `Handles []uintptr` of `Examples.handleTable`.  The
reader classifies the field as a sequence of nested records, `IsSlice` and `IsNested`
both set, because `uintptr` is missing from its basic types (the defect of C16), and
the field is not omitted.  `From` nevertheless writes the direct alias
`Handles: src.Handles` and not the element-wise closure: `generateSliceMapping` takes
its branch by `needsConversion` of the element type text, and the generator's
primitives do list `uintptr`.  On the field `Posts []Post` of `Examples.nestedBlog`,
which the reader classifies in the same way, the entry is the closure that the claim
describes. -/
theorem nested_uintptr_slice_aliased :
    Examples.handleTable.SourceType.Fields
        = [{ Name := "ID", Typ := "int" },
           { Name := "Handles", Typ := "[]uintptr", IsSlice := true, IsNested := true }]
    ∧ Reader.basicTypes.contains "uintptr" = false
    ∧ primitives.contains "uintptr" = true
    ∧ Examples.handleTable.omits "Handles" = false
    ∧ (generateFromMethod New Examples.handleTable).buf
        = "// From maps from an external struct to a local\n"
          ++ "//\n"
          ++ "// Usage: localTable := (&Table\x7b\x7d).From(&externalTable)\n"
          ++ "func (t *Table) From(src *api.Table) *Table \x7b\n"
          ++ "\tif src == nil \x7b\n"
          ++ "\t\treturn nil\n"
          ++ "\t\x7d\n\n"
          ++ "\treturn &Table\x7b\n"
          ++ "\t\tID: src.ID,\n"
          ++ "\t\tHandles: src.Handles,\n"
          ++ "\t\x7d\n"
          ++ "\x7d\n\n"
    ∧ Examples.nestedBlog.SourceType.Fields
        = [{ Name := "ID", Typ := "int" }, { Name := "Title", Typ := "string" },
           { Name := "Author", Typ := "Author", IsNested := true },
           { Name := "Posts", Typ := "[]Post", IsSlice := true, IsNested := true }]
    ∧ Examples.nestedBlog.omits "Posts" = false
    ∧ (generateFromMethod New Examples.nestedBlog).buf
        = "// From maps from an external struct to a local\n"
          ++ "//\n"
          ++ "// Usage: localBlog := (&Blog\x7b\x7d).From(&externalBlog)\n"
          ++ "func (t *Blog) From(src *api.Blog) *Blog \x7b\n"
          ++ "\tif src == nil \x7b\n"
          ++ "\t\treturn nil\n"
          ++ "\t\x7d\n\n"
          ++ "\treturn &Blog\x7b\n"
          ++ "\t\tID: src.ID,\n"
          ++ "\t\tTitle: src.Title,\n"
          ++ "\t\tAuthor: func() Author \x7b\n"
          ++ "\t\tresult := (&Author\x7b\x7d).From(&src.Author)\n"
          ++ "\t\tif result != nil \x7b\n"
          ++ "\t\t\treturn *result\n"
          ++ "\t\t\x7d\n"
          ++ "\t\treturn Author\x7b\x7d\n"
          ++ "\t\x7d(),\n"
          ++ "\t\tPosts: func() []Post \x7b\n"
          ++ "\t\tif src.Posts == nil \x7b\n"
          ++ "\t\t\treturn nil\n"
          ++ "\t\t\x7d\n"
          ++ "\t\tresult := make([]Post, len(src.Posts))\n"
          ++ "\t\tfor i, item := range src.Posts \x7b\n"
          ++ "\t\t\tconverted := (&Post\x7b\x7d).From(&item)\n"
          ++ "\t\t\tif converted != nil \x7b\n"
          ++ "\t\t\t\tresult[i] = *converted\n"
          ++ "\t\t\t\x7d\n"
          ++ "\t\t\x7d\n"
          ++ "\t\treturn result\n"
          ++ "\t\x7d(),\n"
          ++ "\t\x7d\n"
          ++ "\x7d\n\n" := by
  refine ⟨?_, ?_, ?_, ?_, ?_, ?_, ?_, ?_⟩ <;> decide

/-! ## C9: pointers to nested records -/

/-- C9. Let `f` be a source field that is not omitted, is nested and a pointer and not a
slice, and let `T` be the cleaned target type without its leading `*`.  Then the entry
`From` writes for `f` is a closure of result type `*T` that returns
`(&T{}).From(src.<f.Name>)` when `src.<f.Name> != nil` and `nil` otherwise. -/
theorem pointer_nested_converted (g : Generator) (config : MappingConfig)
    (pre post : List FieldInfo) (f : FieldInfo) (T : String)
    (hfields : config.SourceType.Fields = pre ++ f :: post)
    (homit : config.omits f.Name = false)
    (hnested : f.IsNested = true) (hpointer : f.IsPointer = true)
    (hslice : f.IsSlice = false)
    (hT : T = strings.TrimPrefix
      (cleanTypeName (pseudoTargetField config f).Typ config) "*") :
    (generateFromMethod g config).buf
      = fromMethodFields config (g.buf ++ fromMethodHead config) pre
        ++ ("\t\t" ++ targetFieldName config f.Name ++ ": "
            ++ ("func() *" ++ T ++ " \x7b\n"
                ++ "\t\tif src." ++ f.Name ++ " != nil \x7b\n"
                ++ "\t\t\treturn (&" ++ T ++ "\x7b\x7d).From(src." ++ f.Name ++ ")\n"
                ++ "\t\t\x7d\n"
                ++ "\t\treturn nil\n"
                ++ "\t\x7d()")
            ++ ",\n")
        ++ fromMethodFields config "" post ++ "\t\x7d\n\x7d\n\n" := by
  have hexpr : generateFieldMapping f (pseudoTargetField config f) config
      = "func() *" ++ T ++ " \x7b\n"
        ++ "\t\tif src." ++ f.Name ++ " != nil \x7b\n"
        ++ "\t\t\treturn (&" ++ T ++ "\x7b\x7d).From(src." ++ f.Name ++ ")\n"
        ++ "\t\t\x7d\n"
        ++ "\t\treturn nil\n"
        ++ "\t\x7d()" := by
    simp only [generateFieldMapping, homit, pseudoTargetField, hslice, hnested,
      generateNestedMapping, hpointer, hT]
    simp
  rw [generateFromMethod_split g config pre post f hfields,
    fromMethodField_kept config f homit, hexpr]

/-- C9 on `Examples.pointerBlog`: the entry for `Owner *Author` is the nil-guarded
closure over `Author`. -/
theorem pointer_nested_converted_witness :
    (generateFromMethod New Examples.pointerBlog).buf
      = "// From maps from an external struct to a local\n"
        ++ "//\n"
        ++ "// Usage: localBlog := (&Blog\x7b\x7d).From(&externalBlog)\n"
        ++ "func (t *Blog) From(src *api.Blog) *Blog \x7b\n"
        ++ "\tif src == nil \x7b\n"
        ++ "\t\treturn nil\n"
        ++ "\t\x7d\n\n"
        ++ "\treturn &Blog\x7b\n"
        ++ "\t\tID: src.ID,\n"
        ++ "\t\tOwner: func() *Author \x7b\n"
        ++ "\t\tif src.Owner != nil \x7b\n"
        ++ "\t\t\treturn (&Author\x7b\x7d).From(src.Owner)\n"
        ++ "\t\t\x7d\n"
        ++ "\t\treturn nil\n"
        ++ "\t\x7d(),\n"
        ++ "\t\tTags: src.Tags,\n"
        ++ "\t\x7d\n"
        ++ "\x7d\n\n" :=
  (pointer_nested_converted New Examples.pointerBlog
    [{ Name := "ID", Typ := "int" }]
    [{ Name := "Tags", Typ := "[]string", IsSlice := true }]
    { Name := "Owner", Typ := "*Author", IsNested := true, IsPointer := true } "Author"
    (by decide) (by decide) (by decide) (by decide) (by decide) (by decide)).trans (by decide)

/-! ## C10: slices of primitives -/

/-- C10. Let `f` be a source field that is not omitted, has `IsSlice` set, whose element
type is a primitive or a well-known opaque type, and whose source and target element
type expressions are identical.  Then the entry `From` writes for `f` is the direct
alias `src.<f.Name>`. -/
theorem primitive_slice_aliased (g : Generator) (config : MappingConfig)
    (pre post : List FieldInfo) (f : FieldInfo)
    (hfields : config.SourceType.Fields = pre ++ f :: post)
    (homit : config.omits f.Name = false)
    (hslice : f.IsSlice = true)
    (hprim : isPrimitiveType (strings.TrimPrefix f.Typ "[]") = true
      ∨ isBuiltinType (strings.TrimPrefix f.Typ "[]") = true)
    (hsame : strings.TrimPrefix f.Typ "[]"
      = strings.TrimPrefix (pseudoTargetField config f).Typ "[]") :
    (generateFromMethod g config).buf
      = fromMethodFields config (g.buf ++ fromMethodHead config) pre
        ++ ("\t\t" ++ targetFieldName config f.Name ++ ": src." ++ f.Name ++ ",\n")
        ++ fromMethodFields config "" post ++ "\t\x7d\n\x7d\n\n" := by
  have hconv : needsConversion (strings.TrimPrefix f.Typ "[]") = false := by
    unfold needsConversion
    rcases hprim with h | h <;> simp [h]
  have hexpr : generateFieldMapping f (pseudoTargetField config f) config
      = "src." ++ f.Name := by
    have hsame2 := hsame
    simp only [pseudoTargetField] at hsame2
    simp only [generateFieldMapping, homit, pseudoTargetField, hslice, generateSliceMapping,
      hconv, ← hsame2]
    simp
  rw [generateFromMethod_split g config pre post f hfields,
    fromMethodField_kept config f homit, hexpr]
  simp only [String.append_assoc, colon_src]

/-- C10 on `Examples.pointerBlog`: the entry for `Tags []string` is `Tags: src.Tags`. -/
theorem primitive_slice_aliased_witness :
    (generateFromMethod New Examples.pointerBlog).buf
      = "// From maps from an external struct to a local\n"
        ++ "//\n"
        ++ "// Usage: localBlog := (&Blog\x7b\x7d).From(&externalBlog)\n"
        ++ "func (t *Blog) From(src *api.Blog) *Blog \x7b\n"
        ++ "\tif src == nil \x7b\n"
        ++ "\t\treturn nil\n"
        ++ "\t\x7d\n\n"
        ++ "\treturn &Blog\x7b\n"
        ++ "\t\tID: src.ID,\n"
        ++ "\t\tOwner: func() *Author \x7b\n"
        ++ "\t\tif src.Owner != nil \x7b\n"
        ++ "\t\t\treturn (&Author\x7b\x7d).From(src.Owner)\n"
        ++ "\t\t\x7d\n"
        ++ "\t\treturn nil\n"
        ++ "\t\x7d(),\n"
        ++ "\t\tTags: src.Tags,\n"
        ++ "\t\x7d\n"
        ++ "\x7d\n\n" :=
  (primitive_slice_aliased New Examples.pointerBlog
    [{ Name := "ID", Typ := "int" },
     { Name := "Owner", Typ := "*Author", IsNested := true, IsPointer := true }]
    []
    { Name := "Tags", Typ := "[]string", IsSlice := true }
    (by decide) (by decide) (by decide) (Or.inl (by decide)) (by decide)).trans (by decide)

end Generator
end Modelgen

namespace Modelgen
namespace Generator

/-! ## C11, C12, C13: the shape of the emitted struct and methods -/

/-- Rendering two lists read off the same list is rendering that list. -/
theorem zipWith_map_map {α β γ δ : Type} (r : β → γ → δ) (p : α → β) (q : α → γ)
    (l : List α) : List.zipWith r (l.map p) (l.map q) = l.map (fun x => r (p x) (q x)) := by
  induction l with
  | nil => rfl
  | cons x xs ih => simp [ih]

/-- The struct definition as a whole: header, the lines of the kept fields, brace. -/
theorem generateStructDef_closed (g : Generator) (config : MappingConfig) :
    (generateStructDef g config).buf
      = g.buf ++ ("type " ++ config.TargetType.TypeName ++ " struct \x7b\n")
        ++ String.join
            ((config.SourceType.Fields.filter (fun f => !config.omits f.Name)).map
              (fun f => "\t" ++ targetFieldName config f.Name ++ " "
                ++ cleanTypeName f.Typ config ++ "\n"))
        ++ "\x7d\n\n" := by
  have hline : structDefField config ""
      = fun f => if config.omits f.Name then ""
          else "\t" ++ targetFieldName config f.Name ++ " "
            ++ cleanTypeName f.Typ config ++ "\n" := by
    funext f
    by_cases h : config.omits f.Name = true
    · simp [structDefField, h]
    · simp [structDefField, h, String.append_assoc]
  simp only [generateStructDef, structDefFields]
  rw [foldl_buf _ (structDefField_buf config), foldl_buf_join _ (structDefField_buf config),
    hline, join_filter_map]

/-- The `From` method as a whole: head, the entries of the kept fields, closing lines. -/
theorem generateFromMethod_closed (g : Generator) (config : MappingConfig) :
    (generateFromMethod g config).buf
      = g.buf ++ fromMethodHead config
        ++ String.join
            ((config.SourceType.Fields.filter (fun f => !config.omits f.Name)).map
              (fun f => "\t\t" ++ targetFieldName config f.Name ++ ": "
                ++ generateFieldMapping f (pseudoTargetField config f) config ++ ",\n"))
        ++ "\t\x7d\n\x7d\n\n" := by
  have hline : fromMethodField config ""
      = fun f => if config.omits f.Name then ""
          else "\t\t" ++ targetFieldName config f.Name ++ ": "
            ++ generateFieldMapping f (pseudoTargetField config f) config ++ ",\n" := by
    funext f
    by_cases h : config.omits f.Name = true
    · simp [fromMethodField, h]
    · simp [fromMethodField, h, pseudoTargetField, String.append_assoc]
  simp only [generateFromMethod, fromMethodFields]
  rw [foldl_buf _ (fromMethodField_buf config), foldl_buf_join _ (fromMethodField_buf config),
    hline, join_filter_map]
  simp only [String.append_assoc]
  rfl

/-- The `To` method as a whole: head, one entry per source field, closing lines. -/
theorem generateToMethod_closed (g : Generator) (config : MappingConfig) :
    (generateToMethod g config).buf
      = g.buf ++ toMethodHead config
        ++ String.join
            (config.SourceType.Fields.map
              (fun f => "\t\t" ++ f.Name ++ ": "
                ++ (if config.omits f.Name then zeroValue f.Typ
                    else generateReverseFieldMapping (pseudoTargetField config f) f config)
                ++ ",\n"))
        ++ "\t\x7d\n\x7d\n\n" := by
  have hline : toMethodField config ""
      = fun f => "\t\t" ++ f.Name ++ ": "
          ++ (if config.omits f.Name then zeroValue f.Typ
              else generateReverseFieldMapping (pseudoTargetField config f) f config)
          ++ ",\n" := by
    funext f
    by_cases h : config.omits f.Name = true
    · simp [toMethodField, h, String.append_assoc]
    · simp [toMethodField, h, String.append_assoc]
  simp only [generateToMethod, toMethodFields]
  rw [foldl_buf _ (toMethodField_buf config), foldl_buf_join _ (toMethodField_buf config),
    hline]
  simp only [String.append_assoc]
  rfl

/-- C11. The text `generateFromMethod` appends is, in this order: the three comment
lines, the signature `func (t *<Target>) From(src *<pkg>.<Source>) *<Target> {`, the nil
check `if src == nil { return nil }`, the opening of the literal `return &<Target>{`,
the entries of the fields that are not omitted, each holding the per-field expression,
and the closing lines.  The nil check thus precedes the literal and every per-field
expression. -/
theorem generateFromMethod_nil_check_first (g : Generator) (config : MappingConfig) :
    (generateFromMethod g config).buf
      = g.buf
        ++ ("// From maps from an external struct to a local\n"
            ++ "//\n"
            ++ ("// Usage: local" ++ config.TargetType.TypeName ++ " := (&"
                ++ config.TargetType.TypeName ++ "\x7b\x7d).From(&external"
                ++ config.SourceType.TypeName ++ ")\n"))
        ++ ("func (t *" ++ config.TargetType.TypeName ++ ") From(src *"
            ++ config.SourceType.PackageName ++ "." ++ config.SourceType.TypeName ++ ") *"
            ++ config.TargetType.TypeName ++ " \x7b\n")
        ++ ("\tif src == nil \x7b\n"
            ++ "\t\treturn nil\n"
            ++ "\t\x7d\n\n")
        ++ ("\treturn &" ++ config.TargetType.TypeName ++ "\x7b\n")
        ++ String.join
            ((config.SourceType.Fields.filter (fun f => !config.omits f.Name)).map
              (fun f => "\t\t" ++ targetFieldName config f.Name ++ ": "
                ++ generateFieldMapping f (pseudoTargetField config f) config ++ ",\n"))
        ++ "\t\x7d\n\x7d\n\n" := by
  rw [generateFromMethod_closed]
  simp only [fromMethodHead, String.append_assoc]

/-- C12. With `names` the target names of the source fields that are not omitted, in
declaration order, the lines of the struct definition are `names` paired with the
cleaned types and the entries of the literal in `From` are the same `names` paired with
the per-field expressions: the two lists of field names are equal element for element,
and no omitted field is among the fields they are read from. -/
theorem From_initialises_declared_fields (g : Generator) (config : MappingConfig) :
    (generateStructDef g config).buf
        = g.buf ++ ("type " ++ config.TargetType.TypeName ++ " struct \x7b\n")
          ++ String.join
              (List.zipWith (fun name typeStr => "\t" ++ name ++ " " ++ typeStr ++ "\n")
                ((config.SourceType.Fields.filter (fun f => !config.omits f.Name)).map
                  (fun f => targetFieldName config f.Name))
                ((config.SourceType.Fields.filter (fun f => !config.omits f.Name)).map
                  (fun f => cleanTypeName f.Typ config)))
          ++ "\x7d\n\n"
    ∧ (generateFromMethod g config).buf
        = g.buf ++ fromMethodHead config
          ++ String.join
              (List.zipWith (fun name mappingExpr => "\t\t" ++ name ++ ": " ++ mappingExpr ++ ",\n")
                ((config.SourceType.Fields.filter (fun f => !config.omits f.Name)).map
                  (fun f => targetFieldName config f.Name))
                ((config.SourceType.Fields.filter (fun f => !config.omits f.Name)).map
                  (fun f => generateFieldMapping f (pseudoTargetField config f) config)))
          ++ "\t\x7d\n\x7d\n\n"
    ∧ (∀ f ∈ config.SourceType.Fields.filter (fun f => !config.omits f.Name),
        f ∈ config.SourceType.Fields ∧ config.omits f.Name = false) := by
  refine ⟨?_, ?_, ?_⟩
  · rw [generateStructDef_closed, zipWith_map_map]
  · rw [generateFromMethod_closed, zipWith_map_map]
  · intro f hf
    simpa using List.mem_filter.mp hf

/-- C13. The text `generateToMethod` appends is the usage comment, the signature
`func (t *<Target>) To() <pkg>.<Source> {`, the opening of the literal
`return <pkg>.<Source>{`, then one entry per source field in declaration order, each
keyed by the source field name, holding the zero value when the field is omitted and the
reverse mapping expression otherwise, then the closing lines. -/
theorem generateToMethod_one_entry_per_source_field (g : Generator) (config : MappingConfig) :
    (generateToMethod g config).buf
      = g.buf
        ++ ("// Usage: external" ++ config.SourceType.TypeName ++ " := "
            ++ config.TargetType.TypeName ++ ".To()\n")
        ++ ("func (t *" ++ config.TargetType.TypeName ++ ") To() "
            ++ config.SourceType.PackageName ++ "." ++ config.SourceType.TypeName ++ " \x7b\n")
        ++ ("\treturn " ++ config.SourceType.PackageName ++ "." ++ config.SourceType.TypeName
            ++ "\x7b\n")
        ++ String.join
            (config.SourceType.Fields.map
              (fun f => "\t\t" ++ f.Name ++ ": "
                ++ (if config.omits f.Name then zeroValue f.Typ
                    else generateReverseFieldMapping (pseudoTargetField config f) f config)
                ++ ",\n"))
        ++ "\t\x7d\n\x7d\n\n" := by
  rw [generateToMethod_closed]
  simp only [toMethodHead, String.append_assoc]

end Generator
end Modelgen

namespace Modelgen
namespace Generator

/-! ## C14: the identical-type shortcut of the reverse mapping -/

/-- C14. When the cleaned type expressions of the source field and of the target field
are the same text, `generateReverseFieldMapping` returns the direct copy
`t.<tf.Name>`, for all values of the classifiers of the two fields. -/
theorem reverse_shortcut_on_identical_types (tf sf : FieldInfo) (config : MappingConfig)
    (hsame : cleanTypeName sf.Typ config = cleanTypeName tf.Typ config) :
    generateReverseFieldMapping tf sf config = "t." ++ tf.Name := by
  simp [generateReverseFieldMapping, hsame]

/-- C14 on a slice of nested records: target `Posts []Post`, source `Posts []api.Post`
in package `api`, both classified as slice and nested. -/
theorem reverse_shortcut_on_identical_types_witness :
    cleanTypeName "[]api.Post" Examples.nestedBlog = cleanTypeName "[]Post" Examples.nestedBlog
    ∧ generateReverseFieldMapping
        { Name := "Posts", Typ := "[]Post", IsSlice := true, IsNested := true }
        { Name := "Posts", Typ := "[]api.Post", IsSlice := true, IsNested := true }
        Examples.nestedBlog
      = "t.Posts" :=
  have hsame : cleanTypeName "[]api.Post" Examples.nestedBlog
      = cleanTypeName "[]Post" Examples.nestedBlog := by decide
  ⟨hsame, reverse_shortcut_on_identical_types
    { Name := "Posts", Typ := "[]Post", IsSlice := true, IsNested := true }
    { Name := "Posts", Typ := "[]api.Post", IsSlice := true, IsNested := true }
    Examples.nestedBlog hsame⟩

/-! ## C15: a field that is omitted and renamed -/

/-- Deleting a key leaves the entries of the other keys in place. -/
theorem lookup_delete_ne {V : Type} (m : GoMap V) (k n : String) (hne : k ≠ n) :
    (GoMap.delete m n).lookup k = m.lookup k := by
  induction m with
  | nil => rfl
  | cons e rest ih =>
    obtain ⟨a, v⟩ := e
    unfold GoMap.delete at ih ⊢
    by_cases ha : a = n
    · subst ha
      have hk : (k == a) = false := by
        simp only [beq_eq_false_iff_ne, ne_eq]; exact hne
      have hdrop : List.filter (fun e => e.1 != a) ((a, v) :: rest)
          = List.filter (fun e => e.1 != a) rest := by
        simp [List.filter_cons]
      rw [hdrop, ih, List.lookup_cons, hk]
    · have hkeep : List.filter (fun e => e.1 != n) ((a, v) :: rest)
          = (a, v) :: List.filter (fun e => e.1 != n) rest := by
        simp [List.filter_cons, ha]
      rw [hkeep, List.lookup_cons, List.lookup_cons, ih]

/-- C15. When `OmitFields` marks the name `n`, the text of `GenerateStructAndMethods`
is the same for the configuration and for the configuration with the key `n` deleted
from `FieldMap`: for an omitted field no emitter consults `FieldMap`. -/
theorem omission_wins_over_rename (g : Generator) (config : MappingConfig) (n : String)
    (homit : config.omits n = true) :
    (GenerateStructAndMethods g
        { config with FieldMap := GoMap.delete config.FieldMap n }).2
      = (GenerateStructAndMethods g config).2 := by
  have hname : ∀ k, k ≠ n →
      targetFieldName { config with FieldMap := GoMap.delete config.FieldMap n } k
        = targetFieldName config k := by
    intro k hk
    rw [targetFieldName_eq, targetFieldName_eq]
    simp only [lookup_delete_ne config.FieldMap k n hk]
  have hstruct : structDefField { config with FieldMap := GoMap.delete config.FieldMap n }
      = structDefField config := by
    funext buf f
    by_cases hf : f.Name = n
    · simp [structDefField, MappingConfig.omits, hf] at homit ⊢
      simp [homit]
    · simp only [structDefField, MappingConfig.omits, cleanTypeName, hname f.Name hf]
  have hfrom : fromMethodField { config with FieldMap := GoMap.delete config.FieldMap n }
      = fromMethodField config := by
    funext buf f
    by_cases hf : f.Name = n
    · simp [fromMethodField, MappingConfig.omits, hf] at homit ⊢
      simp [homit]
    · simp only [fromMethodField, pseudoTargetField, generateFieldMapping,
        generateSliceMapping, generateNestedMapping, MappingConfig.omits, cleanTypeName,
        hname f.Name hf]
  have hto : toMethodField { config with FieldMap := GoMap.delete config.FieldMap n }
      = toMethodField config := by
    funext buf f
    by_cases hf : f.Name = n
    · simp [toMethodField, MappingConfig.omits, hf] at homit ⊢
      simp [homit]
    · simp only [toMethodField, pseudoTargetField, generateReverseFieldMapping,
        generateReverseSliceMapping, generateReverseNestedMapping, MappingConfig.omits,
        cleanTypeName, hname f.Name hf]
  simp only [GenerateStructAndMethods, generateStructDef, generateFromMethod, generateToMethod,
    structDefFields, fromMethodFields, fromMethodHead, toMethodFields, toMethodHead,
    hstruct, hfrom, hto]

/-- C15 on `Examples.omittedAndRenamed`: `Name` is omitted and is a key of `FieldMap`;
deleting that key gives `Examples.customAccount`, and the emitted text is the same. -/
theorem omission_wins_over_rename_witness :
    Examples.omittedAndRenamed.omits "Name" = true
    ∧ Examples.omittedAndRenamed.FieldMap.lookup "Name" = some "FullName"
    ∧ { Examples.omittedAndRenamed with
          FieldMap := GoMap.delete Examples.omittedAndRenamed.FieldMap "Name" }
        = Examples.customAccount
    ∧ (GenerateStructAndMethods New
        { Examples.omittedAndRenamed with
          FieldMap := GoMap.delete Examples.omittedAndRenamed.FieldMap "Name" }).2
      = (GenerateStructAndMethods New Examples.omittedAndRenamed).2 :=
  ⟨by decide, by decide, rfl,
    omission_wins_over_rename New Examples.omittedAndRenamed "Name" (by decide)⟩

end Generator
end Modelgen

namespace Modelgen

/-! ## C19: `NeedsRecursiveMapping` -/

/-- C19. `NeedsRecursiveMapping` is true exactly when `IsNested` is set on both fields,
and replacing `Name`, `Typ`, `IsPointer`, `IsSlice` and `IsOmitted` of either field by
any other values does not change the result. -/
theorem NeedsRecursiveMapping_iff_both_nested (sourceField targetField : FieldInfo) :
    (FieldMatcher.NeedsRecursiveMapping sourceField targetField = true
        ↔ sourceField.IsNested = true ∧ targetField.IsNested = true)
    ∧ ∀ (name₁ typ₁ name₂ typ₂ : String) (ptr₁ slice₁ omitted₁ ptr₂ slice₂ omitted₂ : Bool),
        FieldMatcher.NeedsRecursiveMapping
            { sourceField with
              Name := name₁, Typ := typ₁, IsPointer := ptr₁, IsSlice := slice₁,
              IsOmitted := omitted₁ }
            { targetField with
              Name := name₂, Typ := typ₂, IsPointer := ptr₂, IsSlice := slice₂,
              IsOmitted := omitted₂ }
          = FieldMatcher.NeedsRecursiveMapping sourceField targetField := by
  refine ⟨?_, ?_⟩
  · simp [FieldMatcher.NeedsRecursiveMapping]
  · intros; rfl

namespace Generator

/-! ## C20: `generateToMethod` and the naive reverse generator -/

/-- Two loop bodies that agree on the members of a list give the same fold. -/
theorem foldl_congr_mem {α β : Type} (step₁ step₂ : β → α → β) (l : List α)
    (h : ∀ x ∈ l, ∀ b, step₁ b x = step₂ b x) (b : β) :
    l.foldl step₁ b = l.foldl step₂ b := by
  induction l generalizing b with
  | nil => rfl
  | cons x xs ih =>
    simp only [List.foldl_cons]
    rw [h x (List.mem_cons_self x xs) b]
    exact ih (fun y hy => h y (List.mem_cons_of_mem x hy)) _

/-- C20. For a source field that is not omitted and whose type expression `t` has
`cleanTypeName (cleanTypeName t) = cleanTypeName t`, whatever its classifiers, the
reverse mapping expression built by `generateToMethod` is `t.<target name>`, it stays so
when the reverse slice and reverse nested emitters are replaced by any other functions,
and the entry written is `<source name>: t.<target name>`.  When every source field
that is not omitted has such a type expression, `generateToMethod` equals the naive
generator that writes a direct copy for every field that is not omitted. -/
theorem generateToMethod_eq_naive (g : Generator) (config : MappingConfig) :
    (∀ f : FieldInfo, config.omits f.Name = false →
        cleanTypeName (cleanTypeName f.Typ config) config = cleanTypeName f.Typ config →
        generateReverseFieldMapping (pseudoTargetField config f) f config
            = "t." ++ targetFieldName config f.Name
        ∧ (∀ sliceEmitter nestedEmitter,
            generateReverseFieldMappingVia sliceEmitter nestedEmitter
                (pseudoTargetField config f) f config
              = "t." ++ targetFieldName config f.Name)
        ∧ toMethodField config "" f
            = "\t\t" ++ f.Name ++ ": t." ++ targetFieldName config f.Name ++ ",\n")
    ∧ generateReverseFieldMapping
        = generateReverseFieldMappingVia generateReverseSliceMapping
            generateReverseNestedMapping
    ∧ ((∀ f ∈ config.SourceType.Fields, config.omits f.Name = false →
          cleanTypeName (cleanTypeName f.Typ config) config = cleanTypeName f.Typ config) →
        generateToMethod g config = naiveToMethod g config) := by
  have hvia : ∀ f : FieldInfo,
      cleanTypeName (cleanTypeName f.Typ config) config = cleanTypeName f.Typ config →
      ∀ sliceEmitter nestedEmitter,
        generateReverseFieldMappingVia sliceEmitter nestedEmitter
            (pseudoTargetField config f) f config
          = "t." ++ targetFieldName config f.Name := by
    intro f h sliceEmitter nestedEmitter
    simp [generateReverseFieldMappingVia, pseudoTargetField, h]
  have hexpr : ∀ f : FieldInfo,
      cleanTypeName (cleanTypeName f.Typ config) config = cleanTypeName f.Typ config →
      generateReverseFieldMapping (pseudoTargetField config f) f config
        = "t." ++ targetFieldName config f.Name :=
    fun f h => hvia f h generateReverseSliceMapping generateReverseNestedMapping
  have hentry : ∀ f : FieldInfo, config.omits f.Name = false →
      cleanTypeName (cleanTypeName f.Typ config) config = cleanTypeName f.Typ config →
      toMethodField config "" f
        = "\t\t" ++ f.Name ++ ": t." ++ targetFieldName config f.Name ++ ",\n" := by
    intro f homit h
    rw [toMethodField_kept config f homit, hexpr f h]
    simp only [String.append_assoc, colon_t]
  refine ⟨fun f homit h => ⟨hexpr f h, hvia f h, hentry f homit h⟩, rfl, ?_⟩
  intro hidem
  have hstep : ∀ f ∈ config.SourceType.Fields, ∀ b,
      toMethodField config b f = naiveToMethodField config b f := by
    intro f hf b
    by_cases homit : config.omits f.Name = true
    · simp [toMethodField, naiveToMethodField, homit]
    · have homit2 : config.omits f.Name = false := by simpa using homit
      rw [toMethodField_buf, hentry f homit2 (hidem f hf homit2)]
      simp [naiveToMethodField, homit2, String.append_assoc]
  simp only [generateToMethod, naiveToMethod, toMethodFields]
  rw [foldl_congr_mem _ _ _ hstep]

/-- C20 on `Examples.nestedBlog`, whose fields include the nested record
`Author Author` and the slice of nested records `Posts []Post`: every entry of `To` is
a direct copy. -/
theorem generateToMethod_eq_naive_witness :
    (∀ f ∈ Examples.nestedBlog.SourceType.Fields, Examples.nestedBlog.omits f.Name = false →
        cleanTypeName (cleanTypeName f.Typ Examples.nestedBlog) Examples.nestedBlog
          = cleanTypeName f.Typ Examples.nestedBlog)
    ∧ (generateToMethod New Examples.nestedBlog).buf
        = "// Usage: externalBlog := Blog.To()\n"
          ++ "func (t *Blog) To() api.Blog \x7b\n"
          ++ "\treturn api.Blog\x7b\n"
          ++ "\t\tID: t.ID,\n"
          ++ "\t\tTitle: t.Title,\n"
          ++ "\t\tAuthor: t.Author,\n"
          ++ "\t\tPosts: t.Posts,\n"
          ++ "\t\x7d\n"
          ++ "\x7d\n\n"
    ∧ generateToMethod New Examples.nestedBlog = naiveToMethod New Examples.nestedBlog :=
  have hidem : ∀ f ∈ Examples.nestedBlog.SourceType.Fields,
      Examples.nestedBlog.omits f.Name = false →
        cleanTypeName (cleanTypeName f.Typ Examples.nestedBlog) Examples.nestedBlog
          = cleanTypeName f.Typ Examples.nestedBlog := by decide
  ⟨hidem, by decide, (generateToMethod_eq_naive New Examples.nestedBlog).2.2 hidem⟩

end Generator
end Modelgen

namespace Modelgen

/-! ## C16: the nested classifier of the reader -/

/-- C16, evaluated on a field `Addr uintptr`.  `uintptr` is a predeclared basic type
(the generator's `primitives` list it), but it is missing from `basicTypes`, so
`isStructType` is true for it and `extractFields` marks the field as nested.  The rest
of the claim holds: `isStructType` is false for every name in `basicTypes` and for
`time.Time` and `time.Duration`, and its value for `*E` and `[]E` is its value for
`E`. -/
theorem isStructType_true_for_uintptr :
    Reader.isStructType (.Ident "uintptr") = true
    ∧ Reader.extractFields [⟨["Addr"], .Ident "uintptr"⟩]
        = [{ Name := "Addr", Typ := "uintptr", IsNested := true }]
    ∧ Generator.primitives.contains "uintptr" = true
    ∧ Reader.basicTypes.contains "uintptr" = false
    ∧ Reader.basicTypes.all (fun name => !Reader.isStructType (.Ident name)) = true
    ∧ Reader.isStructType (.SelectorExpr (.Ident "time") "Time") = false
    ∧ Reader.isStructType (.SelectorExpr (.Ident "time") "Duration") = false
    ∧ (∀ e, Reader.isStructType (.StarExpr e) = Reader.isStructType e)
    ∧ (∀ e, Reader.isStructType (.ArrayType e) = Reader.isStructType e) := by
  refine ⟨by decide, by decide, by decide, by decide, by decide, by decide, by decide,
    fun _ => rfl, fun _ => rfl⟩

namespace Generator

/-! ## C17: `cleanTypeName` -/

/-- C17, evaluated in the source package `api`.  `cleanTypeName` removes every
occurrence of the text `api.`, also where it is the tail of another qualifier: the
qualified name `myapi.T` becomes `myT` and `openapi.Schema` becomes `openSchema`, and
the struct definition of `Examples.suffixQualified` declares `Spec openSchema`.  A
qualifier equal to the source package is stripped and an unrelated qualifier is kept. -/
theorem cleanTypeName_cuts_longer_qualifier :
    Examples.suffixQualified.SourceType.PackageName = "api"
    ∧ cleanTypeName "myapi.T" Examples.suffixQualified = "myT"
    ∧ cleanTypeName "myapi.T" Examples.suffixQualified ≠ "myapi.T"
    ∧ cleanTypeName "openapi.Schema" Examples.suffixQualified = "openSchema"
    ∧ Examples.suffixQualified.SourceType.Fields
        = [{ Name := "ID", Typ := "int" },
           { Name := "Spec", Typ := "openapi.Schema", IsNested := true }]
    ∧ (generateStructDef New Examples.suffixQualified).buf
        = "type Doc struct \x7b\n"
          ++ "\tID int\n"
          ++ "\tSpec openSchema\n"
          ++ "\x7d\n\n"
    ∧ cleanTypeName "api.T" Examples.suffixQualified = "T"
    ∧ cleanTypeName "[]*api.Post" Examples.suffixQualified = "[]*Post"
    ∧ cleanTypeName "map[api.Key]api.Value" Examples.suffixQualified = "map[Key]Value"
    ∧ cleanTypeName "time.Time" Examples.suffixQualified = "time.Time" := by
  refine ⟨?_, ?_, ?_, ?_, ?_, ?_, ?_, ?_, ?_, ?_⟩ <;> decide

end Generator
end Modelgen

namespace Modelgen

/-! ## C18: `MatchFields` -/

namespace GoMap

/-- Indexing after overwriting the entries of one key. -/
theorem lookup_map_replace {V : Type} (m : GoMap V) (k : String) (v : V) (q : String) :
    List.lookup q (m.map (fun e => if e.1 = k then (k, v) else e))
      = if q = k then (if (m.lookup k).isSome then some v else none) else m.lookup q := by
  induction m with
  | nil => simp
  | cons e rest ih =>
    obtain ⟨a, w⟩ := e
    by_cases ha : a = k
    · subst ha
      by_cases hq : q = a
      · subst hq
        simp [List.lookup_cons]
      · have hqa : (q == a) = false := by simpa using hq
        rw [List.map_cons, if_pos rfl, List.lookup_cons, hqa, ih, if_neg hq, if_neg hq,
          List.lookup_cons, hqa]
    · have hka : (k == a) = false := by
        simp only [beq_eq_false_iff_ne, ne_eq]; exact fun h => ha h.symm
      rw [List.map_cons, if_neg ha, List.lookup_cons, ih]
      by_cases hqa : q = a
      · subst hqa
        simp [List.lookup_cons, ha]
      · have hqa2 : (q == a) = false := by simpa using hqa
        rw [hqa2, List.lookup_cons, List.lookup_cons, hka, hqa2]

/-- Indexing after an assignment. -/
theorem lookup_set {V : Type} (m : GoMap V) (k : String) (v : V) (q : String) :
    (set m k v).lookup q = if q = k then some v else m.lookup q := by
  unfold set
  split
  · rename_i hsome
    simp only [beq_iff_eq]
    rw [lookup_map_replace, if_pos hsome]
  · rename_i hnone
    have hk : List.lookup k m = none := by
      cases h : List.lookup k m with
      | none => rfl
      | some w => simp [h] at hnone
    rw [List.lookup_append]
    by_cases hq : q = k
    · subst hq; simp [hk, List.lookup_cons]
    · have hqk : (q == k) = false := by simpa using hq
      simp [List.lookup_cons, hqk, hq]

/-- In a map with distinct keys every entry is the one found by indexing its key. -/
theorem lookup_of_mem {V : Type} (m : GoMap V) (h : (keys m).Nodup) (e : String × V)
    (he : e ∈ m) : m.lookup e.1 = some e.2 := by
  induction m with
  | nil => simp at he
  | cons x rest ih =>
    obtain ⟨a, w⟩ := x
    have hnd := List.nodup_cons.mp h
    rcases List.mem_cons.mp he with heq | hmem
    · subst heq; simp [List.lookup_cons]
    · have hne : (e.1 == a) = false := by
        simp only [beq_eq_false_iff_ne, ne_eq]
        intro hea
        apply hnd.1
        exact List.mem_map.mpr ⟨e, hmem, hea⟩
      rw [List.lookup_cons, hne]
      exact ih hnd.2 hmem

end GoMap

namespace FieldMatcher

/-- The set built by the first loop of `MatchFields` holds `true` for the names of the
listed fields and keeps what it held before. -/
theorem targetFields_lookup (fields : List FieldInfo) (init : GoMap Bool) (q : String) :
    (fields.foldl (fun targetFields tf => targetFields.set tf.Name true) init).lookup q
      = if fields.any (fun tf => tf.Name == q) then some true else init.lookup q := by
  induction fields generalizing init with
  | nil => simp
  | cons x xs ih =>
    simp only [List.foldl_cons, List.any_cons]
    rw [ih, GoMap.lookup_set]
    by_cases hx : q = x.Name
    · subst hx; simp
    · have hx2 : (x.Name == q) = false := by
        simp only [beq_eq_false_iff_ne, ne_eq]; exact fun h => hx h.symm
      simp [hx, hx2]

/-- The map built by the second loop of `MatchFields`, for any test on names. -/
theorem matches_lookup (keep : String → Bool) (fields : List FieldInfo) (init : GoMap String)
    (q : String) :
    (fields.foldl (fun result sf =>
        if keep sf.Name then result.set sf.Name sf.Name else result) init).lookup q
      = if fields.any (fun sf => sf.Name == q) && keep q then some q else init.lookup q := by
  induction fields generalizing init with
  | nil => simp
  | cons x xs ih =>
    simp only [List.foldl_cons, List.any_cons]
    rw [ih]
    by_cases hx : x.Name = q
    · subst hx
      by_cases hkx : keep x.Name = true
      · simp [hkx, GoMap.lookup_set]
      · simp [hkx]
    · have hx2 : (x.Name == q) = false := by simpa using hx
      have hqx : ¬ q = x.Name := fun h => hx h.symm
      by_cases hkx : keep x.Name = true
      · simp [hkx, hx2, GoMap.lookup_set, hqx]
      · simp [hkx, hx2]

/-- The second loop of `MatchFields` keeps the keys distinct. -/
theorem matches_keys_nodup (keep : String → Bool) (fields : List FieldInfo)
    (init : GoMap String) (h : (GoMap.keys init).Nodup) :
    (GoMap.keys (fields.foldl (fun result sf =>
        if keep sf.Name then result.set sf.Name sf.Name else result) init)).Nodup := by
  induction fields generalizing init with
  | nil => exact h
  | cons x xs ih =>
    simp only [List.foldl_cons]
    apply ih
    split
    · exact GoMap.set_keys_nodup init _ _ h
    · exact h

/-- C18. For every name `n`, indexing the map returned by `MatchFields` at `n` gives
`n` itself when `n` is the name of some source field and of some target field, and
nothing otherwise; the map lists no key twice, so every entry it holds maps such a name
to itself and no other entry is present.  In particular `MatchFields s s` has an
identity entry for every field name of `s`. -/
theorem MatchFields_identity_on_common_names (source target : StructInfo) :
    (∀ n, (MatchFields source target).lookup n
        = if source.Fields.any (fun sf => sf.Name == n)
              && target.Fields.any (fun tf => tf.Name == n)
          then some n else none)
    ∧ (GoMap.keys (MatchFields source target)).Nodup
    ∧ (∀ e ∈ MatchFields source target,
        e.2 = e.1 ∧ (∃ sf ∈ source.Fields, sf.Name = e.1) ∧ (∃ tf ∈ target.Fields, tf.Name = e.1))
    ∧ (∀ sf ∈ source.Fields, (MatchFields source source).lookup sf.Name = some sf.Name) := by
  have hlookup : ∀ (s t : StructInfo) (n : String), (MatchFields s t).lookup n
      = if s.Fields.any (fun sf => sf.Name == n) && t.Fields.any (fun tf => tf.Name == n)
        then some n else none := by
    intro s t n
    unfold MatchFields
    simp only
    rw [matches_lookup (fun name =>
      (List.lookup name (t.Fields.foldl (fun targetFields tf =>
        GoMap.set targetFields tf.Name true) ([] : GoMap Bool))).getD false)]
    rw [targetFields_lookup]
    by_cases ht : t.Fields.any (fun tf => tf.Name == n) = true
    · simp [ht]
    · simp [ht]
  have hnodup : (GoMap.keys (MatchFields source target)).Nodup := by
    unfold MatchFields
    exact matches_keys_nodup (fun name =>
      (List.lookup name (target.Fields.foldl (fun targetFields tf =>
        GoMap.set targetFields tf.Name true) ([] : GoMap Bool))).getD false)
      source.Fields [] (by simp [GoMap.keys])
  refine ⟨hlookup source target, hnodup, ?_, ?_⟩
  · intro e he
    have hfound := GoMap.lookup_of_mem _ hnodup e he
    rw [hlookup source target] at hfound
    by_cases hc : (source.Fields.any (fun sf => sf.Name == e.1)
        && target.Fields.any (fun tf => tf.Name == e.1)) = true
    · rw [if_pos hc] at hfound
      have hboth := Bool.and_eq_true_iff.mp hc
      obtain ⟨sf, hsf, hsfn⟩ := List.any_eq_true.mp hboth.1
      obtain ⟨tf, htf, htfn⟩ := List.any_eq_true.mp hboth.2
      exact ⟨(Option.some.inj hfound).symm, ⟨sf, hsf, by simpa using hsfn⟩,
        ⟨tf, htf, by simpa using htfn⟩⟩
    · rw [if_neg hc] at hfound
      exact Option.noConfusion hfound
  · intro sf hsf
    rw [hlookup source source]
    have hany : source.Fields.any (fun x => x.Name == sf.Name) = true :=
      List.any_eq_true.mpr ⟨sf, hsf, by simp⟩
    simp [hany]

end FieldMatcher
end Modelgen

namespace Modelgen

/-! ## C21, C22: the reader's classifiers and the rendered type string -/

/-- A letter of an identifier is none of the characters the generator cuts at. -/
theorem identLetter_not_special (c : Char) (h : isIdentLetter c = true) :
    c ≠ '*' ∧ c ≠ '[' ∧ c ≠ ']' ∧ c ≠ '.' := by
  refine ⟨?_, ?_, ?_, ?_⟩ <;> intro hc <;> subst hc <;> exact absurd h (by decide)

/-- A letter or digit of an identifier is not a dot. -/
theorem identPart_not_dot (d : Char) (h : (isIdentLetter d || d.isDigit) = true) :
    d ≠ '.' := by
  intro hd; subst hd; exact absurd h (by decide)

/-- The characters of an identifier: a letter, then letters and digits. -/
theorem goIdentifier_data (n : String) (h : isGoIdentifier n = true) :
    ∃ c cs, n.data = c :: cs ∧ isIdentLetter c = true
      ∧ ∀ d ∈ cs, (isIdentLetter d || d.isDigit) = true := by
  unfold isGoIdentifier at h
  cases hdata : n.data with
  | nil => rw [hdata] at h; exact absurd h (by decide)
  | cons c cs =>
    rw [hdata] at h
    simp only [Bool.and_eq_true, List.all_eq_true] at h
    exact ⟨c, cs, rfl, h.1, h.2⟩

/-- An identifier holds no dot. -/
theorem goIdentifier_no_dot (n : String) (h : isGoIdentifier n = true) : '.' ∉ n.data := by
  obtain ⟨c, cs, hdata, hc, hcs⟩ := goIdentifier_data n h
  rw [hdata]
  intro hmem
  rcases List.mem_cons.mp hmem with hhead | htail
  · exact (identLetter_not_special c hc).2.2.2 hhead.symm
  · exact identPart_not_dot '.' (hcs '.' htail) rfl

namespace strings

/-- Dropping the leading characters `*`, `[`, `]` skips a leading `*`. -/
theorem dropCut_star (l : List Char) :
    List.dropWhile (fun c => ['*', '[', ']'].contains c) ('*' :: l)
      = List.dropWhile (fun c => ['*', '[', ']'].contains c) l := by
  rw [List.dropWhile_cons, if_pos (by decide)]

/-- Dropping the leading characters `*`, `[`, `]` skips a leading `[]`. -/
theorem dropCut_brackets (l : List Char) :
    List.dropWhile (fun c => ['*', '[', ']'].contains c) ('[' :: ']' :: l)
      = List.dropWhile (fun c => ['*', '[', ']'].contains c) l := by
  rw [List.dropWhile_cons, if_pos (by decide), List.dropWhile_cons, if_pos (by decide)]

/-- Dropping the leading characters `*`, `[`, `]` stops at a letter. -/
theorem dropCut_letter (c : Char) (cs : List Char) (hc : isIdentLetter c = true) :
    List.dropWhile (fun c => ['*', '[', ']'].contains c) (c :: cs) = c :: cs := by
  have hnot := identLetter_not_special c hc
  have hcut : (['*', '[', ']'].contains c) = false := by
    simp [hnot.1, hnot.2.1, hnot.2.2.1]
  rw [List.dropWhile_cons, if_neg (by rw [hcut]; decide)]

/-- `TrimLeft` with the cut set `*[]` drops a leading `*`. -/
theorem TrimLeft_star (t : String) : TrimLeft ("*" ++ t) "*[]" = TrimLeft t "*[]" :=
  congrArg String.mk (dropCut_star t.data)

/-- `TrimLeft` with the cut set `*[]` drops a leading `[]`. -/
theorem TrimLeft_brackets (t : String) : TrimLeft ("[]" ++ t) "*[]" = TrimLeft t "*[]" :=
  congrArg String.mk (dropCut_brackets t.data)

/-- `TrimLeft` with the cut set `*[]` leaves a text that starts with a letter. -/
theorem TrimLeft_letter (t : String) (c : Char) (cs : List Char) (hdata : t.data = c :: cs)
    (hc : isIdentLetter c = true) : TrimLeft t "*[]" = t := by
  apply String.ext
  show List.dropWhile (fun c => ['*', '[', ']'].contains c) t.data = t.data
  rw [hdata]
  exact dropCut_letter c cs hc

/-- Scanning for a dot in a text without one keeps the last match seen so far. -/
theorem lastIndexAux_no_dot (l : List Char) (i : Nat) (best : Int) (h : '.' ∉ l) :
    lastIndexAux ['.'] l i best = best := by
  induction l generalizing i best with
  | nil => rfl
  | cons c cs ih =>
    have hc : ('.' == c) = false := by
      simp only [beq_eq_false_iff_ne, ne_eq]
      intro hEq
      exact h (hEq ▸ List.mem_cons_self _ _)
    have hcs : '.' ∉ cs := fun hmem => h (List.mem_cons_of_mem c hmem)
    simp only [lastIndexAux, List.isPrefixOf, hc, Bool.false_and]
    exact ih (i + 1) best hcs

/-- Scanning for a dot finds the one after which no dot follows. -/
theorem lastIndexAux_last_dot (a b : List Char) (i : Nat) (best : Int) (h : '.' ∉ b) :
    lastIndexAux ['.'] (a ++ '.' :: b) i best = ((i + a.length : Nat) : Int) := by
  induction a generalizing i best with
  | nil =>
    simp only [List.nil_append, lastIndexAux, List.isPrefixOf, beq_self_eq_true, Bool.true_and,
      if_true, List.length_nil, Nat.add_zero]
    exact lastIndexAux_no_dot b (i + 1) i h
  | cons c cs ih =>
    show lastIndexAux ['.'] (cs ++ '.' :: b) (i + 1) _ = _
    rw [ih, List.length_cons]
    congr 1
    omega

end strings
end Modelgen

namespace Modelgen

namespace strings

/-- The text after a last dot that no dot follows. -/
theorem LastIndex_qualified (a b : List Char) (h : '.' ∉ b) :
    LastIndex ⟨a ++ '.' :: b⟩ "." = (a.length : Int) := by
  show lastIndexAux ['.'] (a ++ '.' :: b) 0 (-1) = _
  rw [lastIndexAux_last_dot a b 0 (-1) h, Nat.zero_add]

/-- A text without a dot has no last dot. -/
theorem LastIndex_no_dot (t : String) (h : '.' ∉ t.data) : LastIndex t "." = -1 :=
  lastIndexAux_no_dot t.data 0 (-1) h

/-- `TrimPrefix` takes a leading `[]` off. -/
theorem TrimPrefix_brackets (t : String) : TrimPrefix ("[]" ++ t) "[]" = t := by
  have hpre : HasPrefix ("[]" ++ t) "[]" = true := by
    show (['[', ']'].isPrefixOf ('[' :: ']' :: t.data)) = true
    simp [List.isPrefixOf]
  unfold TrimPrefix
  rw [if_pos hpre]
  rfl

end strings

namespace Generator

/-- `isPrimitiveType` reads its argument through `TrimLeft` only. -/
theorem isPrimitiveType_congr (t₁ t₂ : String)
    (h : strings.TrimLeft t₁ "*[]" = strings.TrimLeft t₂ "*[]") :
    isPrimitiveType t₁ = isPrimitiveType t₂ := by
  simp only [isPrimitiveType, h]

/-- `isBuiltinType` reads its argument through `TrimLeft` only. -/
theorem isBuiltinType_congr (t₁ t₂ : String)
    (h : strings.TrimLeft t₁ "*[]" = strings.TrimLeft t₂ "*[]") :
    isBuiltinType t₁ = isBuiltinType t₂ := by
  simp only [isBuiltinType, h]

/-- `needsConversion` reads its argument through `TrimLeft` only. -/
theorem needsConversion_congr (t₁ t₂ : String)
    (h : strings.TrimLeft t₁ "*[]" = strings.TrimLeft t₂ "*[]") :
    needsConversion t₁ = needsConversion t₂ := by
  simp only [needsConversion, isPrimitiveType_congr t₁ t₂ h, isBuiltinType_congr t₁ t₂ h]

/-- On an identifier `isPrimitiveType` is the lookup in `primitives`. -/
theorem isPrimitiveType_ident (n : String) (h : isGoIdentifier n = true) :
    isPrimitiveType n = primitives.contains n := by
  obtain ⟨c, cs, hdata, hc, _⟩ := goIdentifier_data n h
  have htrim := strings.TrimLeft_letter n c cs hdata hc
  have hidx := strings.LastIndex_no_dot n (goIdentifier_no_dot n h)
  simp only [isPrimitiveType, htrim, hidx]
  simp

/-- No identifier is a key of `builtins`. -/
theorem isBuiltinType_ident (n : String) (h : isGoIdentifier n = true) :
    isBuiltinType n = false := by
  obtain ⟨c, cs, hdata, hc, _⟩ := goIdentifier_data n h
  have htrim := strings.TrimLeft_letter n c cs hdata hc
  simp only [isBuiltinType, htrim]
  have hne₁ : n ≠ "time.Time" := fun hEq => absurd (hEq ▸ h) (by decide)
  have hne₂ : n ≠ "time.Duration" := fun hEq => absurd (hEq ▸ h) (by decide)
  simp [builtins, hne₁, hne₂]

/-- On a qualified name `isPrimitiveType` looks the selected name up in `primitives`. -/
theorem isPrimitiveType_qualified (pkg sel : String) (hpkg : isGoIdentifier pkg = true)
    (hsel : isGoIdentifier sel = true) :
    isPrimitiveType (pkg ++ "." ++ sel) = primitives.contains sel := by
  obtain ⟨c, cs, hdata, hc, _⟩ := goIdentifier_data pkg hpkg
  have hwhole : (pkg ++ "." ++ sel).data = c :: (cs ++ '.' :: sel.data) := by
    show (pkg.data ++ ['.']) ++ sel.data = _
    rw [hdata]; simp
  have htrim := strings.TrimLeft_letter (pkg ++ "." ++ sel) c _ hwhole hc
  have hform : pkg ++ "." ++ sel = ⟨pkg.data ++ '.' :: sel.data⟩ := by
    apply String.ext
    show (pkg.data ++ ['.']) ++ sel.data = _
    simp
  have hidx : strings.LastIndex (pkg ++ "." ++ sel) "." = (pkg.data.length : Int) := by
    rw [hform]
    exact strings.LastIndex_qualified pkg.data sel.data (goIdentifier_no_dot sel hsel)
  have hdrop : String.mk ((pkg ++ "." ++ sel).data.drop ((pkg.data.length : Int) + 1).toNat)
      = sel := by
    apply String.ext
    show List.drop _ ((pkg.data ++ ['.']) ++ sel.data) = sel.data
    have hn : ((pkg.data.length : Int) + 1).toNat = (pkg.data ++ ['.']).length := by
      simp
    rw [hn, List.drop_left]
  have hidxne : ((pkg.data.length : Int) ≠ -1) := by omega
  simp only [isPrimitiveType, htrim, hidx]
  rw [if_pos hidxne, hdrop]

/-- On a qualified name `isBuiltinType` looks the whole name up in `builtins`. -/
theorem isBuiltinType_qualified (pkg sel : String) (hpkg : isGoIdentifier pkg = true) :
    isBuiltinType (pkg ++ "." ++ sel) = builtins.contains (pkg ++ "." ++ sel) := by
  obtain ⟨c, cs, hdata, hc, _⟩ := goIdentifier_data pkg hpkg
  have hwhole : (pkg ++ "." ++ sel).data = c :: (cs ++ '.' :: sel.data) := by
    show (pkg.data ++ ['.']) ++ sel.data = _
    rw [hdata]; simp
  have htrim := strings.TrimLeft_letter (pkg ++ "." ++ sel) c _ hwhole hc
  simp only [isBuiltinType, htrim]

end Generator

namespace Reader

/-- Pointer and slice wrappers do not change `needsConversion` of the rendered type. -/
theorem needsConversion_elementType (e : Expr) :
    Generator.needsConversion (getTypeName e)
      = Generator.needsConversion (getTypeName (elementType e)) := by
  induction e with
  | StarExpr x ih =>
    rw [show elementType (.StarExpr x) = elementType x from rfl, ← ih]
    exact Generator.needsConversion_congr _ _ (strings.TrimLeft_star _)
  | ArrayType x ih =>
    rw [show elementType (.ArrayType x) = elementType x from rfl, ← ih]
    exact Generator.needsConversion_congr _ _ (strings.TrimLeft_brackets _)
  | _ => rfl

/-- Pointer and slice wrappers do not change `isStructType`. -/
theorem isStructType_elementType (e : Expr) :
    isStructType e = isStructType (elementType e) := by
  induction e with
  | StarExpr x ih => exact ih
  | ArrayType x ih => exact ih
  | _ => rfl

/-- The element type of a simple expression is an identifier or a qualified name. -/
theorem elementType_simple (e : Expr) (h : e.isSimple = true) :
    (∃ n, elementType e = .Ident n ∧ isGoIdentifier n = true)
    ∨ (∃ pkg sel, elementType e = .SelectorExpr (.Ident pkg) sel
        ∧ isGoIdentifier pkg = true ∧ isGoIdentifier sel = true) := by
  induction e with
  | Ident n => exact Or.inl ⟨n, rfl, h⟩
  | StarExpr x ih => exact ih h
  | ArrayType x ih => exact ih h
  | SelectorExpr x sel _ =>
    cases x with
    | Ident pkg =>
      have h2 : (isGoIdentifier pkg && isGoIdentifier sel) = true := h
      rw [Bool.and_eq_true] at h2
      exact Or.inr ⟨pkg, sel, rfl, h2.1, h2.2⟩
    | _ => exact absurd h (by simp [Expr.isSimple])
  | _ => exact absurd h (by simp [Expr.isSimple])

end Reader
end Modelgen

namespace Modelgen

/-- Apart from `uintptr` and `error` the reader's `basicTypes` and the generator's
`primitives` hold the same names. -/
theorem basicTypes_eq_primitives (n : String) (h₁ : n ≠ "uintptr") (h₂ : n ≠ "error") :
    Reader.basicTypes.contains n = Generator.primitives.contains n := by
  have hmem : n ∈ Reader.basicTypes ↔ n ∈ Generator.primitives := by
    simp only [Reader.basicTypes, Generator.primitives, List.mem_cons, List.mem_singleton,
      List.not_mem_nil, or_false]
    tauto
  rw [Bool.eq_iff_iff]
  simpa using hmem

/-- C21, evaluated on `uintptr`, `error` and the slice fields `Handles []uintptr` of
`Examples.handleTable` and `Errs []error` of `Examples.errorList`.  The reader takes
`uintptr` for a record and the generator takes it for a primitive, so the slice of
`uintptr` is marked nested and yet aliased; the reader takes `error` for a basic type
and the generator does not, so the slice of `error` is not marked nested and yet gets
the element-wise closure over `(&error{}).From(&item)`.  The two also differ on a
qualified name whose selected name is a primitive name, such as `C.int`.  Everywhere
else they agree: on every expression built from identifiers, qualified names, pointers
and slices whose element type is an identifier other than `uintptr` and `error`, or a
qualified name whose selected name is not a primitive name; and the element type text
that `generateSliceMapping` tests is the rendering of the element of the slice. -/
theorem nested_classifiers_disagree_on_uintptr_and_error :
    (Reader.isStructType (.Ident "uintptr") = true
      ∧ Generator.needsConversion (Reader.getTypeName (.Ident "uintptr")) = false)
    ∧ (Reader.isStructType (.Ident "error") = false
      ∧ Generator.needsConversion (Reader.getTypeName (.Ident "error")) = true)
    ∧ (Reader.isStructType (.SelectorExpr (.Ident "C") "int") = true
      ∧ Generator.needsConversion (Reader.getTypeName (.SelectorExpr (.Ident "C") "int"))
          = false)
    ∧ Examples.handleTable.SourceType.Fields
        = [{ Name := "ID", Typ := "int" },
           { Name := "Handles", Typ := "[]uintptr", IsSlice := true, IsNested := true }]
    ∧ Generator.generateFieldMapping
          { Name := "Handles", Typ := "[]uintptr", IsSlice := true, IsNested := true }
          (Generator.pseudoTargetField Examples.handleTable
            { Name := "Handles", Typ := "[]uintptr", IsSlice := true, IsNested := true })
          Examples.handleTable
        = "src.Handles"
    ∧ Examples.errorList.SourceType.Fields
        = [{ Name := "ID", Typ := "int" },
           { Name := "Errs", Typ := "[]error", IsSlice := true }]
    ∧ (Generator.generateFromMethod Generator.New Examples.errorList).buf
        = "// From maps from an external struct to a local\n"
          ++ "//\n"
          ++ "// Usage: localReport := (&Report\x7b\x7d).From(&externalReport)\n"
          ++ "func (t *Report) From(src *api.Report) *Report \x7b\n"
          ++ "\tif src == nil \x7b\n"
          ++ "\t\treturn nil\n"
          ++ "\t\x7d\n\n"
          ++ "\treturn &Report\x7b\n"
          ++ "\t\tID: src.ID,\n"
          ++ "\t\tErrs: func() []error \x7b\n"
          ++ "\t\tif src.Errs == nil \x7b\n"
          ++ "\t\t\treturn nil\n"
          ++ "\t\t\x7d\n"
          ++ "\t\tresult := make([]error, len(src.Errs))\n"
          ++ "\t\tfor i, item := range src.Errs \x7b\n"
          ++ "\t\t\tconverted := (&error\x7b\x7d).From(&item)\n"
          ++ "\t\t\tif converted != nil \x7b\n"
          ++ "\t\t\t\tresult[i] = *converted\n"
          ++ "\t\t\t\x7d\n"
          ++ "\t\t\x7d\n"
          ++ "\t\treturn result\n"
          ++ "\t\x7d(),\n"
          ++ "\t\x7d\n"
          ++ "\x7d\n\n"
    ∧ (∀ e : Expr, e.isSimple = true → ∀ n, Reader.elementType e = .Ident n →
        n ≠ "uintptr" → n ≠ "error" →
        Reader.isStructType e = Generator.needsConversion (Reader.getTypeName e))
    ∧ (∀ e : Expr, e.isSimple = true → ∀ x sel, Reader.elementType e = .SelectorExpr x sel →
        Generator.primitives.contains sel = false →
        Reader.isStructType e = Generator.needsConversion (Reader.getTypeName e))
    ∧ (∀ x : Expr,
        strings.TrimPrefix (Reader.getTypeName (.ArrayType x)) "[]" = Reader.getTypeName x) := by
  refine ⟨by decide, by decide, by decide, by decide, by decide, by decide, by decide,
    ?_, ?_, ?_⟩
  · intro e hsimple n hn h₁ h₂
    rw [Reader.isStructType_elementType, Reader.needsConversion_elementType, hn]
    rcases Reader.elementType_simple e hsimple with ⟨m, hm, hvalid⟩ | ⟨pkg, sel, hsel, _, _⟩
    · rw [hn] at hm
      have hnm : n = m := by injection hm
      subst hnm
      show (!Reader.basicTypes.contains n) = Generator.needsConversion n
      rw [Generator.needsConversion, Generator.isPrimitiveType_ident n hvalid,
        Generator.isBuiltinType_ident n hvalid, basicTypes_eq_primitives n h₁ h₂]
      simp
    · rw [hn] at hsel
      exact Expr.noConfusion hsel
  · intro e hsimple x sel hx hprim
    rw [Reader.isStructType_elementType, Reader.needsConversion_elementType, hx]
    rcases Reader.elementType_simple e hsimple with ⟨m, hm, _⟩ | ⟨pkg, sel₂, hsel, hpkg, hsel₂⟩
    · rw [hx] at hm
      exact Expr.noConfusion hm
    · rw [hx] at hsel
      injection hsel with hx₂ hs₂
      subst hx₂
      subst hs₂
      show (if Reader.stdlibTypes.contains (pkg ++ "." ++ sel) then false else true)
        = Generator.needsConversion (pkg ++ "." ++ sel)
      rw [Generator.needsConversion, Generator.isPrimitiveType_qualified pkg sel hpkg hsel₂,
        Generator.isBuiltinType_qualified pkg sel hpkg, hprim]
      show _ = (!false && !(Reader.stdlibTypes.contains (pkg ++ "." ++ sel)))
      cases Reader.stdlibTypes.contains (pkg ++ "." ++ sel) <;> rfl
  · intro x
    exact strings.TrimPrefix_brackets _

end Modelgen

namespace Modelgen

namespace strings

/-- A text whose first character is neither `*` nor `[` has neither prefix. -/
theorem no_wrapper_prefix (t : String) (c : Char) (h : ∃ cs, t.data = c :: cs)
    (hstar : c ≠ '*') (hbracket : c ≠ '[') :
    HasPrefix t "*" = false ∧ HasPrefix t "[]" = false := by
  obtain ⟨cs, hdata⟩ := h
  have h₁ : ('*' == c) = false := by
    simp only [beq_eq_false_iff_ne, ne_eq]; exact fun hEq => hstar hEq.symm
  have h₂ : ('[' == c) = false := by
    simp only [beq_eq_false_iff_ne, ne_eq]; exact fun hEq => hbracket hEq.symm
  constructor
  · show (['*'].isPrefixOf t.data) = false
    rw [hdata]; simp [List.isPrefixOf, h₁]
  · show (['[', ']'].isPrefixOf t.data) = false
    rw [hdata]; simp [List.isPrefixOf, h₂]

/-- A text with the prefix `*` or `[]` starts with `*` or `[`. -/
theorem head_of_wrapper_prefix (t : String)
    (h : HasPrefix t "*" = true ∨ HasPrefix t "[]" = true) :
    t.data.head? = some '*' ∨ t.data.head? = some '[' := by
  cases hdata : t.data with
  | nil =>
    rcases h with h | h
    · have h2 : (['*'].isPrefixOf t.data) = true := h
      rw [hdata] at h2; exact absurd h2 (by decide)
    · have h2 : (['[', ']'].isPrefixOf t.data) = true := h
      rw [hdata] at h2; exact absurd h2 (by decide)
  | cons c cs =>
    rcases h with h | h
    · have h2 : (['*'].isPrefixOf t.data) = true := h
      rw [hdata] at h2
      simp only [List.isPrefixOf, Bool.and_eq_true, beq_iff_eq] at h2
      exact Or.inl (by rw [List.head?_cons, h2.1])
    · have h2 : (['[', ']'].isPrefixOf t.data) = true := h
      rw [hdata] at h2
      cases cs with
      | nil => exact absurd h2 (by simp [List.isPrefixOf])
      | cons d ds =>
        simp only [List.isPrefixOf, Bool.and_eq_true, beq_iff_eq] at h2
        exact Or.inr (by rw [List.head?_cons, h2.1])

end strings

namespace Generator

/-- A text is none of the names of a list whose names all start otherwise. -/
theorem not_mem_of_head (t : String) (names : List String) (c : Char)
    (hhead : t.data.head? = some c)
    (hnames : some c ∉ names.map (fun u => u.data.head?)) : t ∉ names :=
  fun hmem => hnames (hhead ▸ List.mem_map_of_mem (fun u => u.data.head?) hmem)

/-- `zeroValue` of a type expression that starts with `*` or `[]` is `nil`. -/
theorem zeroValue_of_wrapper_prefix (t : String)
    (h : strings.HasPrefix t "*" = true ∨ strings.HasPrefix t "[]" = true) :
    zeroValue t = "nil" := by
  have hguard : ∀ names : List String,
      some '*' ∉ names.map (fun u => u.data.head?) →
      some '[' ∉ names.map (fun u => u.data.head?) → t ∉ names := by
    intro names hs hb
    rcases strings.head_of_wrapper_prefix t h with hh | hh
    · exact not_mem_of_head t names '*' hh hs
    · exact not_mem_of_head t names '[' hh hb
  have h₁ : ¬ t = "string" := fun hEq =>
    hguard ["string"] (by decide) (by decide) (by rw [hEq]; exact List.mem_singleton.mpr rfl)
  have h₂ := hguard ["int", "int8", "int16", "int32", "int64"] (by decide) (by decide)
  have h₃ := hguard ["uint", "uint8", "uint16", "uint32", "uint64"] (by decide) (by decide)
  have h₄ := hguard ["float32", "float64"] (by decide) (by decide)
  have h₅ : ¬ t = "bool" := fun hEq =>
    hguard ["bool"] (by decide) (by decide) (by rw [hEq]; exact List.mem_singleton.mpr rfl)
  have hpre : (strings.HasPrefix t "*" || strings.HasPrefix t "[]"
      || strings.HasPrefix t "map[") = true := by
    rcases h with h | h <;> simp [h]
  rw [zeroValue, if_neg h₁, if_neg h₂, if_neg h₃, if_neg h₄, if_neg h₅, if_pos hpre]

end Generator

namespace Reader

/-- Every field `extractFields` returns carries the rendering and the classifiers of one
type expression. -/
theorem extractFields_classified (fieldList : List Field) :
    ∀ f ∈ extractFields fieldList, ∃ e : Expr,
      f.Typ = getTypeName e ∧ f.IsPointer = isPointer e ∧ f.IsSlice = isSlice e
        ∧ f.IsNested = isStructType e := by
  have hinner : ∀ (e : Expr) (names : List String) (acc : List FieldInfo),
      (∀ f ∈ acc, ∃ e : Expr, f.Typ = getTypeName e ∧ f.IsPointer = isPointer e
        ∧ f.IsSlice = isSlice e ∧ f.IsNested = isStructType e) →
      ∀ f ∈ names.foldl (fun fields name =>
          fields ++ [{ Name := name
                       Typ := exprToString e
                       IsPointer := isPointer e
                       IsSlice := isSlice e
                       IsNested := isStructType e }]) acc,
        ∃ e : Expr, f.Typ = getTypeName e ∧ f.IsPointer = isPointer e
          ∧ f.IsSlice = isSlice e ∧ f.IsNested = isStructType e := by
    intro e names
    induction names with
    | nil => intro acc hacc; exact hacc
    | cons name rest ih =>
      intro acc hacc
      simp only [List.foldl_cons]
      apply ih
      intro f hf
      rcases List.mem_append.mp hf with hold | hnew
      · exact hacc f hold
      · rw [List.mem_singleton.mp hnew]
        exact ⟨e, rfl, rfl, rfl, rfl⟩
  have houter : ∀ (fields : List Field) (acc : List FieldInfo),
      (∀ f ∈ acc, ∃ e : Expr, f.Typ = getTypeName e ∧ f.IsPointer = isPointer e
        ∧ f.IsSlice = isSlice e ∧ f.IsNested = isStructType e) →
      ∀ f ∈ fields.foldl (fun fields field =>
          field.Names.foldl (fun fields name =>
            fields ++ [{ Name := name
                         Typ := exprToString field.Typ
                         IsPointer := isPointer field.Typ
                         IsSlice := isSlice field.Typ
                         IsNested := isStructType field.Typ }]) fields) acc,
        ∃ e : Expr, f.Typ = getTypeName e ∧ f.IsPointer = isPointer e
          ∧ f.IsSlice = isSlice e ∧ f.IsNested = isStructType e := by
    intro fields
    induction fields with
    | nil => intro acc hacc; exact hacc
    | cons field rest ih =>
      intro acc hacc
      simp only [List.foldl_cons]
      exact ih _ (hinner field.Typ field.Names acc hacc)
  exact houter fieldList [] (fun f hf => absurd hf (List.not_mem_nil f))

end Reader
end Modelgen

namespace Modelgen
namespace Reader

/-- The rendering of an expression that is neither a pointer nor a slice starts with
neither `*` nor `[]`, when its identifiers are valid. -/
theorem no_wrapper_prefix_of_other (e : Expr) (hwf : e.wellFormed = true)
    (hpointer : isPointer e = false) (hslice : isSlice e = false) :
    strings.HasPrefix (getTypeName e) "*" = false
      ∧ strings.HasPrefix (getTypeName e) "[]" = false := by
  cases e with
  | Ident n =>
    obtain ⟨c, cs, hdata, hc, _⟩ := goIdentifier_data n hwf
    have hnot := identLetter_not_special c hc
    exact strings.no_wrapper_prefix _ c ⟨cs, hdata⟩ hnot.1 hnot.2.1
  | StarExpr x => exact absurd hpointer (by simp [isPointer])
  | ArrayType x => exact absurd hslice (by simp [isSlice])
  | MapType key value =>
    exact strings.no_wrapper_prefix _ 'm' ⟨_, rfl⟩ (by decide) (by decide)
  | SelectorExpr x sel =>
    cases x with
    | Ident pkg =>
      have h2 : (isGoIdentifier pkg && isGoIdentifier sel) = true := hwf
      rw [Bool.and_eq_true] at h2
      obtain ⟨c, cs, hdata, hc, _⟩ := goIdentifier_data pkg h2.1
      have hnot := identLetter_not_special c hc
      have hwhole : (getTypeName (.SelectorExpr (.Ident pkg) sel)).data
          = c :: (cs ++ '.' :: sel.data) := by
        show (pkg.data ++ ['.']) ++ sel.data = _
        rw [hdata]; simp
      exact strings.no_wrapper_prefix _ c ⟨_, hwhole⟩ hnot.1 hnot.2.1
    | _ => exact absurd hwf (by simp [Expr.wellFormed])
  | StructType => exact ⟨by decide, by decide⟩
  | InterfaceType methods =>
    by_cases hm : methods = 0
    · simp only [getTypeName, hm, if_true]; exact ⟨by decide, by decide⟩
    · simp only [getTypeName, hm, if_false]; exact ⟨by decide, by decide⟩
  | FuncType => exact ⟨by decide, by decide⟩
  | ChanType value =>
    exact strings.no_wrapper_prefix _ 'c' ⟨_, rfl⟩ (by decide) (by decide)
  | Other goType =>
    exact strings.no_wrapper_prefix _ 'u' ⟨_, rfl⟩ (by decide) (by decide)

/-- C22. For every type expression whose identifiers are valid Go identifiers,
`isPointer` holds exactly when the rendered type starts with `*`, and `isSlice` holds
exactly when it starts with `[]`.  For every field that `extractFields` returns with
`IsPointer` or `IsSlice` set, `zeroValue` of the field's type is `nil`. -/
theorem classifiers_agree_with_rendered_type :
    (∀ e : Expr, e.wellFormed = true →
        (isPointer e = true ↔ strings.HasPrefix (getTypeName e) "*" = true)
        ∧ (isSlice e = true ↔ strings.HasPrefix (getTypeName e) "[]" = true))
    ∧ (∀ (fieldList : List Field), ∀ f ∈ extractFields fieldList,
        f.IsPointer = true ∨ f.IsSlice = true → Generator.zeroValue f.Typ = "nil") := by
  have hstar : ∀ x : Expr, strings.HasPrefix (getTypeName (.StarExpr x)) "*" = true
      ∧ strings.HasPrefix (getTypeName (.StarExpr x)) "[]" = false := by
    intro x
    constructor
    · show (['*'].isPrefixOf ('*' :: (getTypeName x).data)) = true
      simp [List.isPrefixOf]
    · show (['[', ']'].isPrefixOf ('*' :: (getTypeName x).data)) = false
      simp [List.isPrefixOf]
  have harray : ∀ x : Expr, strings.HasPrefix (getTypeName (.ArrayType x)) "[]" = true
      ∧ strings.HasPrefix (getTypeName (.ArrayType x)) "*" = false := by
    intro x
    constructor
    · show (['[', ']'].isPrefixOf ('[' :: ']' :: (getTypeName x).data)) = true
      simp [List.isPrefixOf]
    · show (['*'].isPrefixOf ('[' :: ']' :: (getTypeName x).data)) = false
      simp [List.isPrefixOf]
  refine ⟨?_, ?_⟩
  · intro e hwf
    by_cases hp : isPointer e = true
    · cases e with
      | StarExpr x => simp [isPointer, isSlice, (hstar x).1, (hstar x).2]
      | _ => exact absurd hp (by simp [isPointer])
    · by_cases hs : isSlice e = true
      · cases e with
        | ArrayType x => simp [isPointer, isSlice, (harray x).1, (harray x).2]
        | _ => exact absurd hs (by simp [isSlice])
      · have hp2 : isPointer e = false := by simpa using hp
        have hs2 : isSlice e = false := by simpa using hs
        obtain ⟨h₁, h₂⟩ := no_wrapper_prefix_of_other e hwf hp2 hs2
        simp [hp2, hs2, h₁, h₂]
  · intro fieldList f hf hflag
    obtain ⟨e, htyp, hpointer, hslice, _⟩ := extractFields_classified fieldList f hf
    apply Generator.zeroValue_of_wrapper_prefix
    rw [htyp]
    rcases hflag with h | h
    · rw [hpointer] at h
      cases e with
      | StarExpr x => exact Or.inl (hstar x).1
      | _ => exact absurd h (by simp [isPointer])
    · rw [hslice] at h
      cases e with
      | ArrayType x => exact Or.inr (harray x).1
      | _ => exact absurd h (by simp [isSlice])

/-- C22 on the declaration `Owner *Author`, `Tags []string`, `When time.Time`: the
first renders with a leading `*` and is a pointer, the second renders with a leading
`[]` and is a slice, the third is neither; the zero value of the first two is `nil`. -/
theorem classifiers_agree_with_rendered_type_witness :
    (Expr.wellFormed (.StarExpr (.Ident "Author")) = true
      ∧ getTypeName (.StarExpr (.Ident "Author")) = "*Author"
      ∧ (isPointer (.StarExpr (.Ident "Author")) = true
          ↔ strings.HasPrefix (getTypeName (.StarExpr (.Ident "Author"))) "*" = true)
      ∧ (isSlice (.StarExpr (.Ident "Author")) = true
          ↔ strings.HasPrefix (getTypeName (.StarExpr (.Ident "Author"))) "[]" = true))
    ∧ (Expr.wellFormed (.SelectorExpr (.Ident "time") "Time") = true
      ∧ getTypeName (.SelectorExpr (.Ident "time") "Time") = "time.Time"
      ∧ (isPointer (.SelectorExpr (.Ident "time") "Time") = true
          ↔ strings.HasPrefix (getTypeName (.SelectorExpr (.Ident "time") "Time")) "*" = true)
      ∧ (isSlice (.SelectorExpr (.Ident "time") "Time") = true
          ↔ strings.HasPrefix (getTypeName (.SelectorExpr (.Ident "time") "Time")) "[]"
              = true))
    ∧ extractFields
          [⟨["Owner"], .StarExpr (.Ident "Author")⟩, ⟨["Tags"], .ArrayType (.Ident "string")⟩,
           ⟨["When"], .SelectorExpr (.Ident "time") "Time"⟩]
        = [{ Name := "Owner", Typ := "*Author", IsPointer := true, IsNested := true },
           { Name := "Tags", Typ := "[]string", IsSlice := true },
           { Name := "When", Typ := "time.Time" }]
    ∧ Generator.zeroValue "*Author" = "nil"
    ∧ Generator.zeroValue "[]string" = "nil" :=
  have hfields : extractFields
      [⟨["Owner"], .StarExpr (.Ident "Author")⟩, ⟨["Tags"], .ArrayType (.Ident "string")⟩,
       ⟨["When"], .SelectorExpr (.Ident "time") "Time"⟩]
      = [{ Name := "Owner", Typ := "*Author", IsPointer := true, IsNested := true },
         { Name := "Tags", Typ := "[]string", IsSlice := true },
         { Name := "When", Typ := "time.Time" }] := by decide
  have hzero := classifiers_agree_with_rendered_type.2
    [⟨["Owner"], .StarExpr (.Ident "Author")⟩, ⟨["Tags"], .ArrayType (.Ident "string")⟩,
     ⟨["When"], .SelectorExpr (.Ident "time") "Time"⟩]
  have hptr := classifiers_agree_with_rendered_type.1 (.StarExpr (.Ident "Author")) (by decide)
  have htime := classifiers_agree_with_rendered_type.1 (.SelectorExpr (.Ident "time") "Time")
    (by decide)
  ⟨⟨by decide, by decide, hptr.1, hptr.2⟩, ⟨by decide, by decide, htime.1, htime.2⟩, hfields,
    hzero { Name := "Owner", Typ := "*Author", IsPointer := true, IsNested := true }
      (by rw [hfields]; decide) (Or.inl rfl),
    hzero { Name := "Tags", Typ := "[]string", IsSlice := true }
      (by rw [hfields]; decide) (Or.inr rfl)⟩

end Reader
end Modelgen
